import Mathlib

/-!
# Verification of the AIProjectEvaluator extraction-and-scoring core

Shallow embedding of the hybrid extraction/scoring pipeline of the
AIProjectEvaluator repository: the response cache and query loop of
`ChatGPTClient`, `extract_metadata_and_scores` and `extract_criteria`
(`ai_data_extraction.py`), and the heuristic fallbacks
`evaluate_work_fallback`, `extract_criteria_fallback`,
`adjust_scores_with_rules`, `generate_recommendations_fallback`
(`manual_data_extraction.py`).

JSON values are modelled by an inductive `JValue`; Python runtime errors
that the source code can raise (TypeError, KeyError, AttributeError,
HTTPException) are modelled by `Except PyErr`.  Numbers cover the integral
JSON values (booleans being Python ints); float literals are treated as
unparseable, which is irrelevant to the claims settled here, all of which
quantify over integer scores.
-/

set_option autoImplicit false
set_option maxRecDepth 8192

namespace AIEval

/-- Python runtime errors that can escape or be caught in the embedded code. -/
inductive PyErr where
  | typeError
  | keyError
  | attributeError
  | indexError
  | httpException
  deriving DecidableEq, Repr

/-- JSON values as returned by `json.loads`.  Objects keep insertion order,
mirroring Python dicts.  `jbool` is kept separate because Python booleans
are `int` instances (`isinstance(True, int)` holds). -/
inductive JValue where
  | jnull
  | jbool (b : Bool)
  | jint (n : Int)
  | jstr (s : String)
  | jarr (xs : List JValue)
  | jobj (fields : List (String × JValue))
  deriving Inhabited

mutual

/-- Boolean structural equality on `JValue` (nested inductive, so the
instance is written by hand). -/
def beqJ : JValue → JValue → Bool
  | .jnull, .jnull => true
  | .jbool a, .jbool b => a = b
  | .jint a, .jint b => a = b
  | .jstr a, .jstr b => a = b
  | .jarr xs, .jarr ys => beqJList xs ys
  | .jobj fs, .jobj gs => beqJObj fs gs
  | _, _ => false

/-- Equality on JSON arrays. -/
def beqJList : List JValue → List JValue → Bool
  | [], [] => true
  | x :: xs, y :: ys => beqJ x y && beqJList xs ys
  | _, _ => false

/-- Equality on JSON object field lists. -/
def beqJObj : List (String × JValue) → List (String × JValue) → Bool
  | [], [] => true
  | (k, v) :: xs, (k', v') :: ys => k = k' && beqJ v v' && beqJObj xs ys
  | _, _ => false

end

mutual

/-- `beqJ` decides equality (proved before the instance it feeds). -/
def beqJ_iff : ∀ a b : JValue, beqJ a b = true ↔ a = b
  | .jnull, b => by cases b <;> simp [beqJ]
  | .jbool a, b => by cases b <;> simp [beqJ]
  | .jint a, b => by cases b <;> simp [beqJ]
  | .jstr a, b => by cases b <;> simp [beqJ]
  | .jarr xs, b => by
      cases b <;> simp [beqJ]
      exact beqJList_iff xs _
  | .jobj fs, b => by
      cases b <;> simp [beqJ]
      exact beqJObj_iff fs _

/-- `beqJList` decides equality. -/
def beqJList_iff : ∀ xs ys : List JValue, beqJList xs ys = true ↔ xs = ys
  | [], ys => by cases ys <;> simp [beqJList]
  | x :: xs, ys => by
      cases ys with
      | nil => simp [beqJList]
      | cons y ys => simp [beqJList, beqJ_iff x y, beqJList_iff xs ys]

/-- `beqJObj` decides equality. -/
def beqJObj_iff :
    ∀ fs gs : List (String × JValue), beqJObj fs gs = true ↔ fs = gs
  | [], gs => by cases gs <;> simp [beqJObj]
  | (k, v) :: fs, gs => by
      cases gs with
      | nil => simp [beqJObj]
      | cons g gs =>
          obtain ⟨k', v'⟩ := g
          simp [beqJObj, beqJ_iff v v', beqJObj_iff fs gs, and_assoc]

end

instance : DecidableEq JValue := fun a b => decidable_of_iff _ (beqJ_iff a b)

deriving instance DecidableEq for Except

namespace JValue

/-- Python truthiness of a JSON value (`if response:` etc.). -/
def truthy : JValue → Bool
  | jnull => false
  | jbool b => b
  | jint n => n ≠ 0
  | jstr s => s ≠ ""
  | jarr xs => ¬ xs.isEmpty
  | jobj fs => ¬ fs.isEmpty

end JValue

open JValue

/-- First-match lookup in an association list (Python dict read; the JSON
parser and all insertions keep keys unique, so first match is the match). -/
def dictLookup {α : Type} (l : List (String × α)) (k : String) : Option α :=
  match l with
  | [] => none
  | (k', v) :: rest => if k' = k then some v else dictLookup rest k

/-- `d.get(k, default)`. -/
def dictGetD {α : Type} (l : List (String × α)) (k : String) (default : α) : α :=
  (dictLookup l k).getD default

/-- Python dict assignment `d[k] = v`: replace in place when the key exists,
otherwise append (insertion order preserved). -/
def dictInsert {α : Type} (l : List (String × α)) (k : String) (v : α) :
    List (String × α) :=
  match l with
  | [] => [(k, v)]
  | (k', v') :: rest =>
      if k' = k then (k', v) :: rest else (k', v') :: dictInsert rest k v

/-- Substring test on character lists (Python's `needle in haystack` for
strings). -/
def containsSub (needle hay : List Char) : Bool :=
  hay.tails.any (fun t => needle.isPrefixOf t)

/-- Python `str.lower()` restricted to the alphabets this repository uses:
ASCII letters and the Russian Cyrillic block (А..Я → а..я, Ё → ё). -/
def rusLowerChar (c : Char) : Char :=
  if 'A' ≤ c ∧ c ≤ 'Z' then Char.ofNat (c.toNat + 32)
  else if 'А' ≤ c ∧ c ≤ 'Я' then Char.ofNat (c.toNat + 32)
  else if c = 'Ё' then 'ё'
  else c

/-- Lower-casing on a character list. -/
def rusLower (cs : List Char) : List Char := cs.map rusLowerChar

/-- Whitespace characters recognised by Python's `str.strip`, `str.split`
and the regex class `\s` on the texts involved here. -/
def isPyWs (c : Char) : Bool :=
  c = ' ' ∨ c = '\t' ∨ c = '\n' ∨ c = '\r' ∨ c = '\x0b' ∨ c = '\x0c'

/-- Python `str.strip()`. -/
def pyStrip (cs : List Char) : List Char :=
  ((cs.dropWhile isPyWs).reverse.dropWhile isPyWs).reverse

/-- Python `str.split()` with no separator: split on whitespace characters
and drop the empty pieces, which is exactly splitting on whitespace runs. -/
def pyWords (cs : List Char) : List (List Char) :=
  (cs.splitOnP isPyWs).filter (fun w => ¬ w.isEmpty)

/-- Number of words of a string under Python `len(s.split())`. -/
def pyWordCount (s : String) : Nat := (pyWords s.toList).length

/-- `len(re.split(r'[.!?]', rec))`: one more than the number of sentence
terminators. -/
def sentenceParts (s : String) : Nat :=
  (s.toList.filter (fun c => c = '.' ∨ c = '!' ∨ c = '?')).length + 1

/-! ## `json.dumps` (default options: `ensure_ascii=True`, separators
`', '` and `': '`), used by the cache to measure response sizes. -/

/-- Lower-case hexadecimal digit. -/
def hexDigit (n : Nat) : Char :=
  if n < 10 then Char.ofNat ('0'.toNat + n) else Char.ofNat ('a'.toNat + (n - 10))

/-- Four-digit lower-case hexadecimal rendering of a code unit. -/
def hex4 (n : Nat) : List Char :=
  [hexDigit (n / 4096 % 16), hexDigit (n / 256 % 16), hexDigit (n / 16 % 16),
   hexDigit (n % 16)]

/-- `json.dumps` escaping of one character under `ensure_ascii=True`. -/
def escapeChar (c : Char) : List Char :=
  if c = '"' then ['\\', '"']
  else if c = '\\' then ['\\', '\\']
  else if c = '\n' then ['\\', 'n']
  else if c = '\r' then ['\\', 'r']
  else if c = '\t' then ['\\', 't']
  else if c = '\x08' then ['\\', 'b']
  else if c = '\x0c' then ['\\', 'f']
  else if c.toNat < 0x20 then '\\' :: 'u' :: hex4 c.toNat
  else if c.toNat < 0x7f then [c]
  else if c.toNat ≤ 0xffff then '\\' :: 'u' :: hex4 c.toNat
  else
    ('\\' :: 'u' :: hex4 (0xd800 + (c.toNat - 0x10000) / 1024)) ++
      ('\\' :: 'u' :: hex4 (0xdc00 + (c.toNat - 0x10000) % 1024))

/-- `json.dumps` escaping of a string body. -/
def escapeStr (s : String) : String :=
  String.mk ((s.toList.map escapeChar).flatten)

mutual

/-- `json.dumps(value)` with the library defaults used by the client. -/
def dumps : JValue → String
  | .jnull => "null"
  | .jbool true => "true"
  | .jbool false => "false"
  | .jint n => toString n
  | .jstr s => "\"" ++ escapeStr s ++ "\""
  | .jarr xs => "[" ++ String.intercalate ", " (dumpsList xs) ++ "]"
  | .jobj fs => "\x7b" ++ String.intercalate ", " (dumpsObj fs) ++ "\x7d"

/-- Serialisations of the elements of a JSON array. -/
def dumpsList : List JValue → List String
  | [] => []
  | x :: xs => dumps x :: dumpsList xs

/-- Serialisations of the members of a JSON object (a key is serialised
exactly as `dumps` of the corresponding string). -/
def dumpsObj : List (String × JValue) → List String
  | [] => []
  | (k, v) :: fs =>
      (("\"" ++ escapeStr k ++ "\"") ++ ": " ++ dumps v) :: dumpsObj fs

end

/-- UTF-8 byte count of one character. -/
def charUtf8Bytes (c : Char) : Nat :=
  if c.toNat < 0x80 then 1
  else if c.toNat < 0x800 then 2
  else if c.toNat < 0x10000 then 3
  else 4

/-- `len(json.dumps(value).encode('utf-8'))`: the byte size the cache
accounts for a value (the `ensure_ascii` serialization is pure ASCII, so
this is its length, but the UTF-8 count is kept for faithfulness). -/
def jsonBytes (v : JValue) : Nat := ((dumps v).toList.map charUtf8Bytes).sum

/-! ## `json.loads` (fueled recursive-descent parser).  Integral numbers
only: a float literal is reported as a parse failure, which no claim
settled here depends on (the prompts and claims deal in integer scores). -/

/-- JSON whitespace skip. -/
def skipJsonWs : List Char → List Char
  | [] => []
  | c :: rest =>
      if c = ' ' ∨ c = '\t' ∨ c = '\n' ∨ c = '\r' then skipJsonWs rest
      else c :: rest

/-- Hexadecimal digit value. -/
def parseHexDigit (c : Char) : Option Nat :=
  if '0' ≤ c ∧ c ≤ '9' then some (c.toNat - '0'.toNat)
  else if 'a' ≤ c ∧ c ≤ 'f' then some (c.toNat - 'a'.toNat + 10)
  else if 'A' ≤ c ∧ c ≤ 'F' then some (c.toNat - 'A'.toNat + 10)
  else none

/-- Parse a JSON string body after the opening quote; returns the decoded
characters and the remainder after the closing quote.  Surrogate escapes
are unsupported (parse failure). -/
def parseStringBody : Nat → List Char → Option (List Char × List Char)
  | 0, _ => none
  | fuel + 1, cs =>
      match cs with
      | [] => none
      | '"' :: rest => some ([], rest)
      | '\\' :: e :: rest =>
          let cont := fun (c : Char) (r : List Char) =>
            (parseStringBody fuel r).map (fun p => (c :: p.1, p.2))
          if e = '"' then cont '"' rest
          else if e = '\\' then cont '\\' rest
          else if e = '/' then cont '/' rest
          else if e = 'n' then cont '\n' rest
          else if e = 't' then cont '\t' rest
          else if e = 'r' then cont '\r' rest
          else if e = 'b' then cont '\x08' rest
          else if e = 'f' then cont '\x0c' rest
          else if e = 'u' then
            match rest with
            | a :: b :: c :: d :: rest' =>
                match parseHexDigit a, parseHexDigit b, parseHexDigit c,
                    parseHexDigit d with
                | some ha, some hb, some hc, some hd =>
                    let n := ha * 4096 + hb * 256 + hc * 16 + hd
                    if 0xd800 ≤ n ∧ n ≤ 0xdfff then none
                    else cont (Char.ofNat n) rest'
                | _, _, _, _ => none
            | _ => none
          else none
      | c :: rest => if c.toNat < 0x20 then none else
          (parseStringBody fuel rest).map (fun p => (c :: p.1, p.2))

/-- Parse a run of decimal digits; returns the value and the remainder. -/
def parseDigits : List Char → Option (Nat × List Char)
  | cs =>
      let ds := cs.takeWhile Char.isDigit
      if ds.isEmpty then none
      else some (ds.foldl (fun acc c => acc * 10 + (c.toNat - '0'.toNat)) 0,
        cs.drop ds.length)

/-- The `{` character, named to keep braces out of character literals. -/
def lbrace : Char := Char.ofNat 123

/-- The `}` character. -/
def rbrace : Char := Char.ofNat 125

mutual

/-- Parse one JSON value (after skipping leading whitespace). -/
def parseJValue : Nat → List Char → Option (JValue × List Char)
  | 0, _ => none
  | fuel + 1, cs =>
      match skipJsonWs cs with
      | 'n' :: 'u' :: 'l' :: 'l' :: rest => some (.jnull, rest)
      | 't' :: 'r' :: 'u' :: 'e' :: rest => some (.jbool true, rest)
      | 'f' :: 'a' :: 'l' :: 's' :: 'e' :: rest => some (.jbool false, rest)
      | '"' :: rest =>
          (parseStringBody (rest.length + 1) rest).map
            (fun p => (.jstr (String.mk p.1), p.2))
      | '[' :: rest =>
          (match skipJsonWs rest with
           | c :: r => if c = ']' then some (.jarr [], r) else
               (parseElems fuel (c :: r)).map (fun p => (.jarr p.1, p.2))
           | [] => none)
      | '-' :: rest =>
          (match parseDigits rest with
           | some (n, r) =>
               (match r with
                | c :: _ => if c = '.' ∨ c = 'e' ∨ c = 'E' then none
                    else some (.jint (-(n : Int)), r)
                | [] => some (.jint (-(n : Int)), r))
           | none => none)
      | c :: rest =>
          if c = lbrace then
            match skipJsonWs rest with
            | c' :: r =>
                if c' = rbrace then some (.jobj [], r)
                else
                  (parseMembers fuel (c' :: r)).map (fun p =>
                    (.jobj (p.1.foldl (fun acc kv => dictInsert acc kv.1 kv.2) []),
                      p.2))
            | [] => none
          else if c.isDigit then
            match parseDigits (c :: rest) with
            | some (n, r) =>
                (match r with
                 | c' :: _ => if c' = '.' ∨ c' = 'e' ∨ c' = 'E' then none
                     else some (.jint (n : Int), r)
                 | [] => some (.jint (n : Int), r))
            | none => none
          else none
      | [] => none

/-- Parse the elements of a non-empty JSON array (up to and including the
closing bracket). -/
def parseElems : Nat → List Char → Option (List JValue × List Char)
  | 0, _ => none
  | fuel + 1, cs =>
      match parseJValue fuel cs with
      | some (v, r) =>
          (match skipJsonWs r with
           | ',' :: r' =>
               (parseElems fuel r').map (fun p => (v :: p.1, p.2))
           | ']' :: r' => some ([v], r')
           | _ => none)
      | none => none

/-- Parse the members of a non-empty JSON object (up to and including the
closing brace), keeping duplicates in order; `json.loads` later resolves
duplicates last-wins via `dictInsert`. -/
def parseMembers : Nat → List Char → Option (List (String × JValue) × List Char)
  | 0, _ => none
  | fuel + 1, cs =>
      match skipJsonWs cs with
      | '"' :: rest =>
          (match parseStringBody (rest.length + 1) rest with
           | some (k, r1) =>
               (match skipJsonWs r1 with
                | ':' :: r2 =>
                    (match parseJValue fuel r2 with
                     | some (v, r3) =>
                         (match skipJsonWs r3 with
                          | ',' :: r4 =>
                              (parseMembers fuel r4).map (fun p =>
                                ((String.mk k, v) :: p.1, p.2))
                          | c :: r4 =>
                              if c = rbrace then some ([(String.mk k, v)], r4)
                              else none
                          | [] => none)
                     | none => none)
                | _ => none)
           | none => none)
      | _ => none

end

/-- `json.loads(s)`: parse the whole string as one JSON document. -/
def jsonLoads (s : String) : Option JValue :=
  let cs := s.toList
  match parseJValue (cs.length + 1) cs with
  | some (v, rest) => if (skipJsonWs rest).isEmpty then some v else none
  | none => none

/-! ## The Markdown code-fence stripper
`re.sub(r'^```json\s*|\s*```$', '', content, flags=re.MULTILINE).strip()`. -/

/-- The literal opening fence. -/
def fenceJson : List Char := "```json".toList

/-- Attempt to match `\s*```$` at the current position: a maximal
whitespace run, the fence, and a line end (before `\n` or at the end). -/
def tryFenceEnd (cs : List Char) : Option (List Char) :=
  let ws := cs.takeWhile isPyWs
  match cs.drop ws.length with
  | '`' :: '`' :: '`' :: rest' =>
      match rest' with
      | [] => some []
      | '\n' :: _ => some rest'
      | _ => none
  | _ => none

/-- Left-to-right scan of the multiline substitution: at each position try
`^```json\s*` (only at a line start), then `\s*```$`; on a match drop the
matched text and continue after it, otherwise keep the character. -/
def stripFencesAux : Nat → Bool → List Char → List Char
  | 0, _, cs => cs
  | fuel + 1, atStart, cs =>
      match cs with
      | [] => []
      | c :: rest =>
          if atStart ∧ fenceJson.isPrefixOf cs then
            let ws := (cs.drop 7).takeWhile isPyWs
            let after := (cs.drop 7).drop ws.length
            stripFencesAux fuel (ws.getLast? = some '\n') after
          else
            match tryFenceEnd cs with
            | some rest' => stripFencesAux fuel false rest'
            | none => c :: stripFencesAux fuel (c = '\n') rest

/-- The whole line-185 normalisation of the model content. -/
def stripFences (s : String) : String :=
  String.mk (pyStrip (stripFencesAux (s.toList.length + 1) true s.toList))

/-! ## Python operations on JSON values used by the extraction code -/

/-- Python `needle in j` for a string needle: key membership for dicts,
element equality for lists, substring for strings, `TypeError` for the
non-container values. -/
def pyIn (needle : String) : JValue → Except PyErr Bool
  | .jobj fs => .ok (fs.any (fun kv => kv.1 = needle))
  | .jarr xs => .ok (xs.any (fun x => x = .jstr needle))
  | .jstr s => .ok (containsSub needle.toList s.toList)
  | _ => .error .typeError

/-- Python `j[key]` for a string key: dict lookup (`KeyError` when absent),
`TypeError` on every other value. -/
def pySubscript (j : JValue) (key : String) : Except PyErr JValue :=
  match j with
  | .jobj fs =>
      match dictLookup fs key with
      | some v => .ok v
      | none => .error .keyError
  | _ => .error .typeError

/-- Python `j[0]`: list head (`IndexError` on empty — unreachable behind
the truthiness guard), `KeyError` for dicts (JSON objects never carry the
integer key `0`), first character for strings, `TypeError` otherwise. -/
def pyIndex0 (j : JValue) : Except PyErr JValue :=
  match j with
  | .jarr (x :: _) => .ok x
  | .jarr [] => .error .indexError
  | .jobj _ => .error .keyError
  | .jstr s =>
      match s.toList with
      | c :: _ => .ok (.jstr (String.mk [c]))
      | [] => .error .indexError
  | _ => .error .typeError

/-- The integral value of a JSON value when Python's `isinstance(·, int)`
holds: integers and booleans (`True` counting as 1). -/
def intLike : JValue → Option Int
  | .jint n => some n
  | .jbool b => some (if b then 1 else 0)
  | _ => none

/-- Python `==` between a JSON value and an integer (numeric equality for
ints and bools, `False` across other types). -/
def pyEqInt (j : JValue) (t : Int) : Bool :=
  match intLike j with
  | some n => n = t
  | none => false

/-! ## `manual_data_extraction.py` -/

/-- A rubric criterion as handed around by the pipeline:
`{"name": ..., "max_score": ...}`. -/
structure Criterion where
  name : String
  max_score : Int
  deriving DecidableEq, Repr

/-- The loop of `evaluate_work_fallback`. -/
def evaluateWorkAux : List Criterion → List (String × Int) → List (String × Int)
  | [], scores => scores
  | c :: rest, scores =>
      evaluateWorkAux rest (dictInsert scores c.name (max 1 (c.max_score - 1)))

/-- `evaluate_work_fallback`: the rule-of-thumb fallback scorer,
`max(1, max_score - 1)` per criterion (lines 199–208). -/
def evaluate_work_fallback (criteria : List Criterion) : List (String × Int) :=
  evaluateWorkAux criteria []

/-- `generate_recommendations_fallback` (lines 240–246): two fixed
recommendation strings, independent of the filename. -/
def generate_recommendations_fallback (filename : String) : List String :=
  let _ := filename
  ["Углубите анализ результатов исследования. Это повысит их научную ценность.",
   "Добавьте визуальные элементы для наглядности. Это улучшит восприятие проекта."]

/-- The novelty criterion targeted by the rule adjuster. -/
def noveltyName : String := "актуальность изобретения, новизна решения"

/-- The formatting criterion targeted by the rule adjuster. -/
def formattingName : String := "грамотность и качество оформления работы"

/-- Trigger keywords for the novelty criterion. -/
def noveltyKeywords : List String :=
  ["новый", "инновационный", "уникальный", "впервые", "актуально",
   "современно", "проблема", "решение"]

/-- Trigger keywords for the formatting criterion. -/
def structureKeywords : List String :=
  ["введение", "заключение", "цель", "задачи", "оглавление"]

/-- One iteration of the `adjust_scores_with_rules` loop for one
criterion. -/
def adjustStep (textLower : List Char) (crit : Criterion)
    (adjusted : List (String × Int)) : List (String × Int) :=
  if crit.name = noveltyName then
    if noveltyKeywords.any (fun kw => containsSub kw.toList textLower) then
      dictInsert adjusted crit.name
        (min crit.max_score (dictGetD adjusted crit.name 0 + 1))
    else
      dictInsert adjusted crit.name (max 0 (dictGetD adjusted crit.name 0 - 1))
  else if crit.name = formattingName then
    if structureKeywords.any (fun kw => containsSub kw.toList textLower) then
      dictInsert adjusted crit.name
        (min crit.max_score (dictGetD adjusted crit.name 0 + 1))
    else
      dictInsert adjusted crit.name (max 0 (dictGetD adjusted crit.name 0 - 1))
  else adjusted

/-- The loop of `adjust_scores_with_rules`. -/
def adjustAux (textLower : List Char) :
    List Criterion → List (String × Int) → List (String × Int)
  | [], adjusted => adjusted
  | crit :: rest, adjusted =>
      adjustAux textLower rest (adjustStep textLower crit adjusted)

/-- `adjust_scores_with_rules` (lines 210–238): keyword-presence nudges on
the two named criteria, `+1` capped at `max_score` when a keyword occurs in
the lower-cased text, `-1` floored at `0` otherwise; other criteria pass
through untouched (`adjusted_scores` starts as `scores.copy()`). -/
def adjust_scores_with_rules (text : String) (scores : List (String × Int))
    (criteria : List Criterion) : List (String × Int) :=
  adjustAux (rusLower text.toList) criteria scores

/-! ### `extract_criteria_fallback` (lines 145–197): text normalisation,
the three criterion pattern families, and the declared-total pattern. -/

/-- `re.sub(r'\s+', ' ', ·)` by a single scan tracking whether the previous
character was whitespace. -/
def collapseWsAux : Bool → List Char → List Char
  | _, [] => []
  | prevWs, c :: rest =>
      if isPyWs c then
        if prevWs then collapseWsAux true rest
        else ' ' :: collapseWsAux true rest
      else c :: collapseWsAux false rest

/-- `'–'`/`'—'` to `'-'`. -/
def dashNormChar (c : Char) : Char := if c = '–' ∨ c = '—' then '-' else c

/-- Line 153: `re.sub(r'\s+', ' ', text.strip()).replace('–', '-')
.replace('—', '-')`. -/
def normalizeText (s : String) : List Char :=
  (collapseWsAux false (pyStrip s.toList)).map dashNormChar

/-- The character class `[А-Яа-я\s,\(\):]` of the criterion-name groups
(`А..я` is the contiguous Cyrillic block `0x410–0x44F`). -/
def isNameChar (c : Char) : Bool :=
  ('А' ≤ c ∧ c ≤ 'я') ∨ isPyWs c ∨ c = ',' ∨ c = '(' ∨ c = ')' ∨ c = ':'

/-- Case-insensitive literal match (the literal given in lower case),
returning the remainder. -/
def matchLitCI : List Char → List Char → Option (List Char)
  | [], cs => some cs
  | _ :: _, [] => none
  | l :: ls, c :: cs => if rusLowerChar c = l then matchLitCI ls cs else none

/-- Membership in the class `[аов]` under `re.IGNORECASE`. -/
def isAov (c : Char) : Bool :=
  rusLowerChar c = 'а' ∨ rusLowerChar c = 'о' ∨ rusLowerChar c = 'в'

/-- Greedy `[аов]{0,2}`. -/
def dropAov2 : List Char → List Char
  | [] => []
  | c :: rest =>
      if isAov c then
        match rest with
        | c' :: rest' => if isAov c' then rest' else rest
        | [] => []
      else c :: rest

/-- `0-(\d+)\s*балл[аов]{0,2}`: the captured number and the remainder. -/
def matchScoreCore (cs : List Char) : Option (Nat × List Char) :=
  match cs with
  | '0' :: '-' :: rest =>
      match parseDigits rest with
      | some (n, r1) =>
          match matchLitCI "балл".toList (r1.dropWhile isPyWs) with
          | some r3 => some (n, dropAov2 r3)
          | none => none
      | none => none
  | _ => none

/-- `\(0-(\d+)\s*балл[аов]{0,2}\)`. -/
def matchParenScore (cs : List Char) : Option (Nat × List Char) :=
  match cs with
  | '(' :: rest =>
      match matchScoreCore rest with
      | some (n, r) =>
          match r with
          | ')' :: r' => some (n, r')
          | _ => none
      | none => none
  | _ => none

/-- The lazy group `([А-Яа-я\s,\(\):]+?)` followed by `\s*` and a closing
matcher: grow the name one class character at a time, trying to close
after each. -/
def lazyName (close : List Char → Option (Nat × List Char)) :
    List Char → List Char → Option (List Char × Nat × List Char)
  | _, [] => none
  | acc, c :: rest =>
      if isNameChar c then
        match close rest with
        | some (n, after) => some (acc ++ [c], n, after)
        | none => lazyName close (acc ++ [c]) rest
      else none

/-- Closing matcher of pattern 1: `\s*(?:0-(\d+)\s*балл[аов]{0,2}|
\(0-(\d+)\s*балл[аов]{0,2}\))`, first alternative first. -/
def tryCloseP1 (cs : List Char) : Option (Nat × List Char) :=
  let r := cs.dropWhile isPyWs
  match matchScoreCore r with
  | some res => some res
  | none => matchParenScore r

/-- The list marker `(?:\d+\.\s*|[-•]\s*)` of pattern 1. -/
def matchMarkerP1 (cs : List Char) : Option (List Char) :=
  match cs with
  | [] => none
  | c :: rest =>
      if c.isDigit then
        match parseDigits (c :: rest) with
        | some (_, r) =>
            match r with
            | '.' :: r' => some (r'.dropWhile isPyWs)
            | _ => none
        | none => none
      else if c = '-' ∨ c = '•' then some (rest.dropWhile isPyWs)
      else none

/-- One attempted match of pattern 1 at the current position, giving the
captured name, the score and the remainder.  (Whitespace before the name
is consumed maximally; the regex engine's residual ws-backtracking can
only produce names that strip to at most the marker and are discarded by
the `> 5` length filter, so it is not reproduced.) -/
def matchP1At (cs : List Char) : Option (List Char × Nat × List Char) :=
  match matchMarkerP1 cs with
  | some afterMarker => lazyName tryCloseP1 [] afterMarker
  | none => none

/-- Closing matcher of pattern 2: `\s*\(0-(\d+)\s*балл[аов]{0,2}\)`. -/
def tryCloseP2 (cs : List Char) : Option (Nat × List Char) :=
  matchParenScore (cs.dropWhile isPyWs)

/-- One attempted match of pattern 2, `([-•]?\s*[А-Яа-я\s,\(\):]+?)\s*
\(0-(\d+)\s*балл[аов]{0,2}\)`: the optional marker and the leading
whitespace belong to the captured group (and are stripped afterwards). -/
def matchP2At (cs : List Char) : Option (List Char × Nat × List Char) :=
  match cs with
  | [] => none
  | c :: rest =>
      if c = '-' ∨ c = '•' then
        let ws := rest.takeWhile isPyWs
        (lazyName tryCloseP2 [] (rest.drop ws.length)).map
          (fun p => (c :: ws ++ p.1, p.2.1, p.2.2))
      else
        let ws := cs.takeWhile isPyWs
        (lazyName tryCloseP2 [] (cs.drop ws.length)).map
          (fun p => (ws ++ p.1, p.2.1, p.2.2))

/-- Closing matcher of pattern 3: `\s*\|\s*(?:0-(\d+)\s*балл[аов]{0,2})`. -/
def tryCloseP3 (cs : List Char) : Option (Nat × List Char) :=
  match cs.dropWhile isPyWs with
  | '|' :: r => matchScoreCore (r.dropWhile isPyWs)
  | _ => none

/-- One attempted match of pattern 3,
`\|\s*([А-Яа-я\s,\(\):]+?)\s*\|\s*(?:0-(\d+)\s*балл[аов]{0,2})`. -/
def matchP3At (cs : List Char) : Option (List Char × Nat × List Char) :=
  match cs with
  | '|' :: rest =>
      let ws := rest.takeWhile isPyWs
      lazyName tryCloseP3 [] (rest.drop ws.length)
  | _ => none

/-- `re.finditer`: scan left to right, record non-overlapping matches and
resume after each match's end. -/
def findIter (matchAt : List Char → Option (List Char × Nat × List Char)) :
    Nat → List Char → List (List Char × Nat)
  | 0, _ => []
  | _, [] => []
  | fuel + 1, cs =>
      match matchAt cs with
      | some (name, n, after) => (name, n) :: findIter matchAt fuel after
      | none => findIter matchAt fuel cs.tail

/-- All matches of the three pattern families, in pattern order (the
source runs every pattern and appends all their matches). -/
def fallbackMatchesAll (t : List Char) : List (List Char × Nat) :=
  findIter matchP1At (t.length + 1) t ++ findIter matchP2At (t.length + 1) t
    ++ findIter matchP3At (t.length + 1) t

/-- Exclusion keywords for candidate criterion names. -/
def criterionKeywordBan : List String := ["итого", "максимальный", "комментарий"]

/-- The hard-coded default rubric used when no pattern matches. -/
def defaultCriteria : List Criterion :=
  [⟨"актуальность изобретения, новизна решения", 4⟩,
   ⟨"исследовательская составляющая работы", 5⟩,
   ⟨"степень самостоятельности в проведении исследования", 3⟩,
   ⟨"сложность проекта", 7⟩,
   ⟨"практическое применение и социальная значимость", 5⟩,
   ⟨"авторский вклад в проект", 5⟩,
   ⟨"грамотность и качество оформления работы", 3⟩]

/-- The regex `(?:Максимальный\s*балл\s*[-–]\s*|\(макс\.\s*балл\s*[-–]\s*)
(\d+)` from its keyword onward (shared tail of both alternatives). -/
def declTail (cs : List Char) : Option Nat :=
  match matchLitCI "балл".toList (cs.dropWhile isPyWs) with
  | some r2 =>
      match r2.dropWhile isPyWs with
      | c :: r4 =>
          if c = '-' ∨ c = '–' then
            match parseDigits (r4.dropWhile isPyWs) with
            | some (n, _) => some n
            | none => none
          else none
      | [] => none
  | none => none

/-- One attempted match of the declared-total regex at a position. -/
def tryDeclaredAt (cs : List Char) : Option Nat :=
  match matchLitCI "максимальный".toList cs with
  | some r1 => declTail r1
  | none =>
      match cs with
      | '(' :: r =>
          match matchLitCI "макс".toList r with
          | some ('.' :: r2) => declTail r2
          | _ => none
      | _ => none

/-- `re.search` of the declared-total regex: first matching position. -/
def matchDeclaredTotal : List Char → Option Nat
  | [] => none
  | c :: rest =>
      match tryDeclaredAt (c :: rest) with
      | some n => some n
      | none => matchDeclaredTotal rest

/-- Serialise a criterion back to its dict shape. -/
def criterionToJ (c : Criterion) : JValue :=
  .jobj [("name", .jstr c.name), ("max_score", .jint c.max_score)]

/-- The criteria-collection loop of lines 164–173: append each match whose
stripped name is longer than 5 characters and avoids the exclusion
keywords, accumulating `max_total_score` alongside. -/
def collectCriteria :
    List (List Char × Nat) → List Criterion × Int → List Criterion × Int
  | [], acc => acc
  | m :: rest, acc =>
      if 5 < (String.mk (pyStrip m.1)).length ∧ criterionKeywordBan.all
          (fun kw => ¬ containsSub kw.toList
            (rusLower (pyStrip m.1))) then
        collectCriteria rest
          (acc.1 ++ [⟨String.mk (pyStrip m.1), (m.2 : Int)⟩],
            acc.2 + (m.2 : Int))
      else collectCriteria rest acc

/-- `extract_criteria_fallback` (lines 145–197): pattern scan with length
and keyword filters, the default rubric when nothing matches, and the
declared-total override of the computed sum. -/
def extract_criteria_fallback (text : String) : JValue :=
  let t := normalizeText text
  let found := collectCriteria (fallbackMatchesAll t) ([], 0)
  let pair :=
    if found.1.isEmpty then
      (defaultCriteria, (defaultCriteria.map Criterion.max_score).sum)
    else found
  let total :=
    match matchDeclaredTotal t with
    | some parsed => if (parsed : Int) ≠ pair.2 then (parsed : Int) else pair.2
    | none => pair.2
  .jobj [("criteria", .jarr (pair.1.map criterionToJ)),
    ("max_total_score", .jint total)]

/-! ## `ai_data_extraction.py`: the `ChatGPTClient` cache and query loop -/

/-- `self.max_cache_size_bytes = 10 * 1024 * 1024`. -/
def maxCacheBytes : Nat := 10 * 1024 * 1024

/-- `LRUCache(maxsize=1000)`. -/
def lruMaxSize : Nat := 1000

/-- The client's mutable cache state: the LRU map (least-recently-used
entry first) and the byte counter `current_cache_size_bytes`. -/
structure CacheState where
  entries : List (String × JValue)
  sizeBytes : Nat
  deriving DecidableEq

/-- `LRUCache.__setitem__`: an existing key is updated and marked most
recently used; a new key evicts the least-recently-used entry when the
entry-count bound is full, and is appended as most recently used. -/
def lruSet (entries : List (String × JValue)) (key : String) (v : JValue) :
    List (String × JValue) :=
  if (dictLookup entries key).isSome then
    (entries.filter (fun kv => kv.1 ≠ key)) ++ [(key, v)]
  else if lruMaxSize ≤ entries.length then
    entries.tail ++ [(key, v)]
  else entries ++ [(key, v)]

/-- `load_cache` (lines 36–53): insert persisted entries in stored order,
adding each value's serialized size to the byte counter, and stop at the
first entry that would exceed the byte bound (`break`). -/
def load_cache (st : CacheState) : List (String × JValue) → CacheState
  | [] => st
  | (k, v) :: rest =>
      let size := jsonBytes v
      if st.sizeBytes + size ≤ maxCacheBytes then
        load_cache ⟨lruSet st.entries k v, st.sizeBytes + size⟩ rest
      else st

/-- Models `hashlib.sha256(text[:2000].encode('utf-8')).hexdigest()`: a
deterministic fingerprint of the first 2000 characters of the text.  The
claims depend only on determinism and on the prefix restriction, so the
hash function itself is modelled by the prefix. -/
def cacheKey (text : String) : String := String.mk (text.toList.take 2000)

/-- Outcome of one network attempt inside `query`'s retry loop. -/
inductive AttemptOutcome where
  /-- `raise_for_status` passed and `response.json()` yielded this value. -/
  | success (response : JValue)
  /-- `aiohttp.ClientResponseError` with status 429. -/
  | respRateLimited
  /-- any other `aiohttp.ClientResponseError`. -/
  | respError
  /-- `aiohttp.ClientError` or `asyncio.TimeoutError`. -/
  | transportError
  deriving DecidableEq

/-- The retry loop of `query` (lines 75–117): on success, cache the
response only when the byte counter plus its size stays within the bound
(otherwise the response is returned uncached, nothing being evicted for
size); on 429 sleep and retry; on other errors retry, returning `None`
after the final attempt; `None` after the loop. -/
def queryLoop (st : CacheState) (key : String) :
    List AttemptOutcome → Option JValue × CacheState
  | [] => (none, st)
  | .success v :: _ =>
      let size := jsonBytes v
      if st.sizeBytes + size ≤ maxCacheBytes then
        (some v, ⟨lruSet st.entries key v, st.sizeBytes + size⟩)
      else (some v, st)
  | .respRateLimited :: rest => queryLoop st key rest
  | .respError :: rest => queryLoop st key rest
  | .transportError :: rest => queryLoop st key rest

/-- `query` (lines 64–117): cached responses are returned immediately
(marking the entry most recently used); otherwise the retry loop runs,
one `AttemptOutcome` per attempt (`retries` is the list's length). -/
def query (st : CacheState) (text : String) (outcomes : List AttemptOutcome) :
    Option JValue × CacheState :=
  match dictLookup st.entries (cacheKey text) with
  | some v =>
      (some v, ⟨(st.entries.filter (fun kv => kv.1 ≠ cacheKey text)) ++
        [(cacheKey text, v)], st.sizeBytes⟩)
  | none => queryLoop st (cacheKey text) outcomes

/-! ## `extract_metadata_and_scores` (lines 119–236) -/

/-- Outcome of lines 182–186: the guard on the response, the navigation
`response['choices'][0]['message']['content']`, the fence stripping and
`json.loads`. -/
inductive ContentOutcome where
  /-- an exception not caught by the `except (JSONDecodeError, KeyError)`. -/
  | raises (e : PyErr)
  /-- the line-182 guard failed: falsy response, no `'choices'`, falsy list. -/
  | noAI
  /-- a `KeyError` during navigation or a JSON decode failure, caught. -/
  | caught
  /-- the content parsed to this JSON value. -/
  | parsed (j : JValue)
  deriving DecidableEq

/-- Shared response-to-parsed-content path of `extract_metadata_and_scores`
and `extract_criteria`.  The guard runs outside the `try`, so its
`TypeError`s propagate; the navigation and parse run inside it, so their
`KeyError`s and decode failures are caught. -/
def responseParsedContent (response : Option JValue) : ContentOutcome :=
  match response with
  | none => .noAI
  | some rj =>
      if ¬ truthy rj then .noAI
      else
        match pyIn "choices" rj with
        | .error e => .raises e
        | .ok false => .noAI
        | .ok true =>
            match pySubscript rj "choices" with
            | .error e => .raises e
            | .ok cv =>
                if ¬ truthy cv then .noAI
                else
                  match pyIndex0 cv with
                  | .error .keyError => .caught
                  | .error e => .raises e
                  | .ok elem =>
                      match pySubscript elem "message" with
                      | .error .keyError => .caught
                      | .error e => .raises e
                      | .ok msg =>
                          match pySubscript msg "content" with
                          | .error .keyError => .caught
                          | .error e => .raises e
                          | .ok content =>
                              match content with
                              | .jstr s =>
                                  match jsonLoads (stripFences s) with
                                  | some j => .parsed j
                                  | none => .caught
                              | _ => .raises .typeError

/-- The final merged result of `extract_metadata_and_scores`: the
`metadata` dict, the `scores` dict (whose values are plain integers in the
source, the per-criterion reasons being only logged) and the two
recommendation strings. -/
structure ExtractionResult where
  metadata : JValue
  scores : List (String × Int)
  recommendations : List String
  deriving DecidableEq

/-- The all-Unknown metadata baseline (line 177). -/
def defaultMetadata : JValue :=
  .jobj [("author", .jstr "Unknown"), ("grade", .jstr "Unknown"),
    ("school", .jstr "Unknown"), ("title", .jstr "Unknown")]

/-- The fallback result materialised before the AI output is consulted
(lines 176–180). -/
def baseResult (filename : String) (criteria : List Criterion) :
    ExtractionResult :=
  ⟨defaultMetadata, evaluate_work_fallback criteria,
    generate_recommendations_fallback filename⟩

/-- Lines 189–190: the metadata overlay — any dict is adopted wholesale. -/
def metadataStage (parsed : JValue) (current : JValue) : Except PyErr JValue :=
  match pyIn "metadata" parsed with
  | .error e => .error e
  | .ok false => .ok current
  | .ok true =>
      match pySubscript parsed "metadata" with
      | .error e => .error e
      | .ok mv =>
          match mv with
          | .jobj _ => .ok mv
          | _ => .ok current

/-- Lines 202–204: `score = min(max(0, score), max_score)` applied exactly
when the proposed integer is out of range, the identity otherwise. -/
def clampScore (n m : Int) : Int :=
  if n < 0 ∨ n > m then min (max 0 n) m else n

/-- Lines 196–209 for one criterion: read the proposed score (default 0),
clamp it into `[0, max_score]` when it is out of range or not an `int`
(the clamp `max(0, score)` raising `TypeError` on a non-numeric score),
and store it only when positive, the fallback value being kept otherwise.
The corrected reason is only logged, never stored. -/
def scoreOne (sc : List (String × JValue)) (crit : Criterion)
    (acc : List (String × Int)) : Except PyErr (List (String × Int)) :=
  match dictLookup sc crit.name with
  | some (.jobj entry) =>
      match intLike (dictGetD entry "score" (.jint 0)) with
      | some n =>
          if clampScore n crit.max_score > 0 then
            .ok (dictInsert acc crit.name (clampScore n crit.max_score))
          else
            match dictLookup acc crit.name with
            | some old => .ok (dictInsert acc crit.name old)
            | none => .error .keyError
      | none => .error .typeError
  | some _ => .ok acc
  | none => .ok acc

/-- The per-criterion loop of lines 195–209. -/
def scoresLoop (sc : List (String × JValue)) :
    List Criterion → List (String × Int) → Except PyErr (List (String × Int))
  | [], acc => .ok acc
  | crit :: rest, acc =>
      match scoreOne sc crit acc with
      | .ok acc' => scoresLoop sc rest acc'
      | .error e => .error e

/-- Lines 193–209: the scores overlay, entered only when the parsed result
carries a `scores` dict. -/
def scoresStage (criteria : List Criterion) (parsed : JValue)
    (base : List (String × Int)) : Except PyErr (List (String × Int)) :=
  match pyIn "scores" parsed with
  | .error e => .error e
  | .ok false => .ok base
  | .ok true =>
      match pySubscript parsed "scores" with
      | .error e => .error e
      | .ok (.jobj sc) => scoresLoop sc criteria base
      | .ok _ => .ok base

/-- The `recommendations` field of the parsed content, when it is a list
(spec-side view shared with the theorems about the overlay). -/
def recsCandidate (parsed : JValue) : Option (List JValue) :=
  match parsed with
  | .jobj fs =>
      match dictLookup fs "recommendations" with
      | some (.jarr recs) => some recs
      | _ => none
  | _ => none

/-- The strings of a candidate list that passed the all-strings check. -/
def recsStrsOf (recs : List JValue) : List String :=
  recs.map (fun r => match r with | .jstr s => s | _ => "")

/-- Lines 214–218 as one predicate: exactly two entries, each a string
that is non-empty after stripping, combined word count at most 60, each
with at least two segments when split on sentence terminators. -/
def recsValid (recs : List JValue) : Bool :=
  recs.length = 2 ∧
    recs.all (fun r => match r with
      | .jstr s => pyStrip s.toList ≠ []
      | _ => false) ∧
    (recsStrsOf recs).foldl (fun acc s => acc + pyWordCount s) 0 ≤ 60 ∧
    (recsStrsOf recs).all (fun s => 2 ≤ sentenceParts s)

/-- Lines 212–223: the all-or-nothing recommendations overlay. -/
def recsStage (parsed : JValue) (current : List String) :
    Except PyErr (List String) :=
  match pyIn "recommendations" parsed with
  | .error e => .error e
  | .ok false => .ok current
  | .ok true =>
      match pySubscript parsed "recommendations" with
      | .error e => .error e
      | .ok (.jarr recs) =>
          if recsValid recs then .ok (recsStrsOf recs) else .ok current
      | .ok _ => .ok current

/-- Lines 188–236 from a successfully parsed content value: the three
overlays in source order over the fallback baseline. -/
def masCore (filename : String) (criteria : List Criterion) (parsed : JValue) :
    Except PyErr ExtractionResult :=
  match metadataStage parsed defaultMetadata with
  | .error e => .error e
  | .ok md =>
      match scoresStage criteria parsed (evaluate_work_fallback criteria) with
      | .error e => .error e
      | .ok scs =>
          match recsStage parsed (generate_recommendations_fallback filename) with
          | .error e => .error e
          | .ok recs => .ok ⟨md, scs, recs⟩

/-- `extract_metadata_and_scores` (lines 119–236), as a function of the
input text's metadata-independent parts: the filename, the criteria list
and the AI response (`None` when `query` gave up). -/
def extract_metadata_and_scores (filename : String) (criteria : List Criterion)
    (response : Option JValue) : Except PyErr ExtractionResult :=
  match responseParsedContent response with
  | .raises e => .error e
  | .noAI => .ok (baseResult filename criteria)
  | .caught => .ok (baseResult filename criteria)
  | .parsed j => masCore filename criteria j

/-! ## `extract_criteria` (lines 238–276) -/

/-- Python iteration over a JSON value: list elements, dict keys, string
characters; `TypeError` otherwise. -/
def pyIter : JValue → Except PyErr (List JValue)
  | .jarr xs => .ok xs
  | .jobj fs => .ok (fs.map (fun kv => .jstr kv.1))
  | .jstr s => .ok (s.toList.map (fun c => .jstr (String.mk [c])))
  | _ => .error .typeError

/-- `sum(c['max_score'] for c in ...)`: `KeyError` when an element dict
lacks the key (caught by the caller's `except`), `TypeError` on non-dict
elements or non-numeric values (propagating). -/
def sumMaxScores : List JValue → Except PyErr Int
  | [] => .ok 0
  | c :: rest =>
      match pySubscript c "max_score" with
      | .error e => .error e
      | .ok v =>
          match intLike v with
          | some n =>
              match sumMaxScores rest with
              | .ok t => .ok (n + t)
              | .error e => .error e
          | none => .error .typeError

/-- Lines 265–272: compute the criteria sum and overwrite a disagreeing
`max_total_score`; `.get` on a non-dict parse raises `AttributeError`. -/
def criteriaReconcile (j : JValue) : Except PyErr JValue :=
  match j with
  | .jobj fs =>
      match pyIter (dictGetD fs "criteria" (.jarr [])) with
      | .error e => .error e
      | .ok items =>
          match sumMaxScores items with
          | .error e => .error e
          | .ok total =>
              if ¬ pyEqInt (dictGetD fs "max_total_score" (.jint 0)) total then
                .ok (.jobj (dictInsert fs "max_total_score" (.jint total)))
              else .ok (.jobj fs)
  | _ => .error .attributeError

/-- `extract_criteria` (lines 238–276), as a function of the rubric text
and the AI response: empty text raises the HTTP client error; an absent or
unusable response (including a caught `KeyError` during reconciliation)
delegates to the regex fallback. -/
def extract_criteria (text : String) (response : Option JValue) :
    Except PyErr JValue :=
  if pyStrip text.toList = [] then .error .httpException
  else
    match responseParsedContent response with
    | .raises e => .error e
    | .noAI => .ok (extract_criteria_fallback text)
    | .caught => .ok (extract_criteria_fallback text)
    | .parsed j =>
        match criteriaReconcile j with
        | .ok j' => .ok j'
        | .error .keyError => .ok (extract_criteria_fallback text)
        | .error e => .error e

/-! ## Spec-side vocabulary used by the theorems -/

/-- The value lines 198–206 store for one criterion, as a function of the
AI `scores` dict and the previously stored (fallback) value `old`:
the clamped positive score, or `old` when the proposed score is absent,
non-dict, or clamps to a non-positive value; `TypeError` when the clamp
meets a non-numeric score. -/
def storedScore (sc : List (String × JValue)) (crit : Criterion) (old : Int) :
    Except PyErr Int :=
  match dictLookup sc crit.name with
  | some (.jobj entry) =>
      match intLike (dictGetD entry "score" (.jint 0)) with
      | some n =>
          if clampScore n crit.max_score > 0 then .ok (clampScore n crit.max_score)
          else .ok old
      | none => .error .typeError
  | some _ => .ok old
  | none => .ok old

/-- The recommendations candidate the overlay inspects, seen from the raw
response: the `recommendations` list of the parsed content, when any. -/
def recsCandidateOfResponse (response : Option JValue) : Option (List JValue) :=
  match responseParsedContent response with
  | .parsed j => recsCandidate j
  | _ => none

/-- A well-formed chat-completions response enclosing the given content
string, the shape the OpenAI endpoint returns. -/
def mkResponse (content : String) : JValue :=
  .jobj [("choices", .jarr [.jobj [("message", .jobj [("content",
    .jstr content)])]])]

/-- Whether a network attempt succeeded. -/
def AttemptOutcome.isSuccess : AttemptOutcome → Bool
  | .success _ => true
  | _ => false

/-- The bytes actually resident in the cache map (serialized sizes of the
stored values) — as opposed to the tracked counter `sizeBytes`. -/
def residentBytes (st : CacheState) : Nat :=
  (st.entries.map (fun kv => jsonBytes kv.2)).sum

/-- A cache state whose byte counter is near the bound while its resident
bytes are tiny — the shape the counter reaches after many evictions. -/
def overfullState : CacheState := ⟨[("к", .jstr "data")], 10485500⟩

/-- A response large enough to be refused by the counter but not by the
resident bytes. -/
def bigVal : JValue := .jstr (String.mk (List.replicate 400 'x'))

/-- A full cache (1000 entries) with a zero byte counter, used to witness
that count-bound eviction does not touch the counter. -/
def fullCacheState : CacheState :=
  ⟨(List.range lruMaxSize).map (fun i => (toString i, JValue.jnull)), 0⟩

/-! # Lemmas about the dictionary model and the overlay loops -/

theorem dictLookup_insert_self {α : Type} (l : List (String × α)) (k : String)
    (v : α) : dictLookup (dictInsert l k v) k = some v := by
  induction l with
  | nil => simp [dictInsert, dictLookup]
  | cons kv rest ih =>
      obtain ⟨k0, v0⟩ := kv
      by_cases h : k0 = k <;> simp [dictInsert, dictLookup, h, ih]

theorem dictLookup_insert_ne {α : Type} (l : List (String × α)) (k k' : String)
    (v : α) (h : k ≠ k') :
    dictLookup (dictInsert l k v) k' = dictLookup l k' := by
  induction l with
  | nil => simp [dictInsert, dictLookup, h]
  | cons kv rest ih =>
      obtain ⟨k0, v0⟩ := kv
      by_cases h0 : k0 = k
      · subst h0
        simp [dictInsert, dictLookup, h]
      · simp [dictInsert, dictLookup, h0, ih]

theorem dictInsert_lookup_self {α : Type} (l : List (String × α)) (k : String)
    (v : α) (h : dictLookup l k = some v) : dictInsert l k v = l := by
  induction l with
  | nil => simp [dictLookup] at h
  | cons kv rest ih =>
      obtain ⟨k0, v0⟩ := kv
      by_cases h0 : k0 = k
      · subst h0
        simp [dictLookup] at h
        simp [dictInsert, h]
      · simp [dictLookup, h0] at h
        simp [dictInsert, h0, ih h]

theorem dictLookup_isSome_insert {α : Type} (l : List (String × α))
    (k k' : String) (v : α) (h : (dictLookup l k').isSome) :
    (dictLookup (dictInsert l k v) k').isSome := by
  by_cases hk : k = k'
  · subst hk
    simp [dictLookup_insert_self]
  · rw [dictLookup_insert_ne _ _ _ _ hk]
    exact h

theorem dictLookup_any (fs : List (String × JValue)) (k : String) (v : JValue)
    (h : dictLookup fs k = some v) : (fs.any (fun kv => kv.1 = k)) = true := by
  induction fs with
  | nil => simp [dictLookup] at h
  | cons kv rest ih =>
      obtain ⟨k0, v0⟩ := kv
      by_cases h0 : k0 = k
      · simp [h0]
      · simp [dictLookup, h0] at h
        simp [ih h]

theorem dictLookup_of_any_false (fs : List (String × JValue)) (k : String)
    (h : (fs.any (fun kv => kv.1 = k)) = false) : dictLookup fs k = none := by
  induction fs with
  | nil => rfl
  | cons kv rest ih =>
      obtain ⟨k0, v0⟩ := kv
      rw [List.any_cons, Bool.or_eq_false_iff] at h
      have h0 : ¬ (k0 = k) := by simpa using h.1
      simp [dictLookup, h0]
      exact ih h.2

/-! ## `evaluateWorkAux` -/

theorem evaluateWorkAux_notmem :
    ∀ (crits : List Criterion) (acc : List (String × Int)) (name : String),
    (∀ c ∈ crits, c.name ≠ name) →
    dictLookup (evaluateWorkAux crits acc) name = dictLookup acc name
  | [], _, _, _ => rfl
  | c0 :: rest, acc, name, h => by
      rw [evaluateWorkAux, evaluateWorkAux_notmem rest _ _
        (fun c hc => h c (List.mem_cons_of_mem _ hc))]
      exact dictLookup_insert_ne _ _ _ _ (h c0 (List.mem_cons_self _ _))

theorem evaluateWorkAux_mem :
    ∀ (crits : List Criterion) (acc : List (String × Int)) (c : Criterion),
    c ∈ crits → (crits.map Criterion.name).Nodup →
    dictLookup (evaluateWorkAux crits acc) c.name = some (max 1 (c.max_score - 1))
  | [], _, _, hc, _ => absurd hc (List.not_mem_nil _)
  | c0 :: rest, acc, c, hc, hnd => by
      rw [List.map_cons, List.nodup_cons] at hnd
      rw [evaluateWorkAux]
      rcases List.mem_cons.mp hc with h | h
      · subst h
        have hne : ∀ cr ∈ rest, cr.name ≠ c.name := by
          intro cr hcr he
          exact hnd.1 (he ▸ List.mem_map_of_mem Criterion.name hcr)
        rw [evaluateWorkAux_notmem _ _ _ hne]
        exact dictLookup_insert_self _ _ _
      · exact evaluateWorkAux_mem rest _ c h hnd.2

theorem evaluateWorkAux_isSome_mono :
    ∀ (crits : List Criterion) (acc : List (String × Int)) (name : String),
    (dictLookup acc name).isSome →
    (dictLookup (evaluateWorkAux crits acc) name).isSome
  | [], _, _, h => h
  | c0 :: rest, acc, name, h => by
      rw [evaluateWorkAux]
      exact evaluateWorkAux_isSome_mono rest _ _
        (dictLookup_isSome_insert _ _ _ _ h)

theorem evaluateWorkAux_isSome :
    ∀ (crits : List Criterion) (acc : List (String × Int)) (c : Criterion),
    c ∈ crits → (dictLookup (evaluateWorkAux crits acc) c.name).isSome
  | [], _, _, hc => absurd hc (List.not_mem_nil _)
  | c0 :: rest, acc, c, hc => by
      rw [evaluateWorkAux]
      rcases List.mem_cons.mp hc with h | h
      · subst h
        exact evaluateWorkAux_isSome_mono _ _ _ (by simp [dictLookup_insert_self])
      · exact evaluateWorkAux_isSome rest _ c h

/-! ## `scoreOne` and `scoresLoop` -/

theorem scoreOne_shape (sc : List (String × JValue)) (crit : Criterion)
    (acc acc' : List (String × Int)) (h : scoreOne sc crit acc = .ok acc') :
    acc' = acc ∨ ∃ v : Int, acc' = dictInsert acc crit.name v := by
  unfold scoreOne at h
  split at h
  · split at h
    · split at h
      · cases h
        exact Or.inr ⟨_, rfl⟩
      · split at h
        · cases h
          exact Or.inr ⟨_, rfl⟩
        · cases h
    · cases h
  · cases h
    exact Or.inl rfl
  · cases h
    exact Or.inl rfl

theorem scoreOne_other (sc : List (String × JValue)) (crit : Criterion)
    (acc acc' : List (String × Int)) (h : scoreOne sc crit acc = .ok acc')
    (name : String) (hne : crit.name ≠ name) :
    dictLookup acc' name = dictLookup acc name := by
  rcases scoreOne_shape sc crit acc acc' h with h1 | ⟨v, h1⟩
  · rw [h1]
  · rw [h1]
    exact dictLookup_insert_ne _ _ _ _ hne

theorem scoreOne_isSome_mono (sc : List (String × JValue)) (crit : Criterion)
    (acc acc' : List (String × Int)) (h : scoreOne sc crit acc = .ok acc')
    (name : String) (hs : (dictLookup acc name).isSome) :
    (dictLookup acc' name).isSome := by
  rcases scoreOne_shape sc crit acc acc' h with h1 | ⟨v, h1⟩
  · rw [h1]
    exact hs
  · rw [h1]
    exact dictLookup_isSome_insert _ _ _ _ hs

theorem scoreOne_eq (sc : List (String × JValue)) (crit : Criterion)
    (acc : List (String × Int)) (old : Int)
    (h : dictLookup acc crit.name = some old) :
    scoreOne sc crit acc =
      (storedScore sc crit old).map (fun v => dictInsert acc crit.name v) := by
  unfold scoreOne storedScore
  cases hsc : dictLookup sc crit.name with
  | none => simp [Except.map, dictInsert_lookup_self _ _ _ h]
  | some ev =>
      cases ev with
      | jobj entry =>
          cases hint : intLike (dictGetD entry "score" (.jint 0)) with
          | none => simp [hint, Except.map]
          | some n =>
              by_cases hpos : clampScore n crit.max_score > 0
              · simp [hint, hpos, Except.map]
              · simp [hint, hpos, h, Except.map]
      | jnull => simp [Except.map, dictInsert_lookup_self _ _ _ h]
      | jbool b => simp [Except.map, dictInsert_lookup_self _ _ _ h]
      | jint m => simp [Except.map, dictInsert_lookup_self _ _ _ h]
      | jstr s => simp [Except.map, dictInsert_lookup_self _ _ _ h]
      | jarr xs => simp [Except.map, dictInsert_lookup_self _ _ _ h]

theorem scoresLoop_notmem :
    ∀ (sc : List (String × JValue)) (crits : List Criterion)
      (acc final : List (String × Int)),
    scoresLoop sc crits acc = .ok final →
    ∀ name : String, (∀ c ∈ crits, c.name ≠ name) →
    dictLookup final name = dictLookup acc name
  | _, [], acc, final, h, name, _ => by
      cases h
      rfl
  | sc, c0 :: rest, acc, final, h, name, hn => by
      rw [scoresLoop] at h
      cases h1 : scoreOne sc c0 acc with
      | error e =>
          rw [h1] at h
          cases h
      | ok acc1 =>
          rw [h1] at h
          rw [scoresLoop_notmem sc rest acc1 final h name
            (fun c hc => hn c (List.mem_cons_of_mem _ hc))]
          exact scoreOne_other _ _ _ _ h1 _ (hn c0 (List.mem_cons_self _ _))

theorem scoresLoop_isSome_mono :
    ∀ (sc : List (String × JValue)) (crits : List Criterion)
      (acc final : List (String × Int)),
    scoresLoop sc crits acc = .ok final →
    ∀ name : String, (dictLookup acc name).isSome →
    (dictLookup final name).isSome
  | _, [], acc, final, h, name, hs => by
      cases h
      exact hs
  | sc, c0 :: rest, acc, final, h, name, hs => by
      rw [scoresLoop] at h
      cases h1 : scoreOne sc c0 acc with
      | error e =>
          rw [h1] at h
          cases h
      | ok acc1 =>
          rw [h1] at h
          exact scoresLoop_isSome_mono sc rest acc1 final h name
            (scoreOne_isSome_mono _ _ _ _ h1 _ hs)

theorem scoresLoop_stored :
    ∀ (sc : List (String × JValue)) (crits : List Criterion)
      (acc final : List (String × Int)) (c : Criterion) (old : Int),
    (crits.map Criterion.name).Nodup → c ∈ crits →
    dictLookup acc c.name = some old →
    scoresLoop sc crits acc = .ok final →
    ∃ v, storedScore sc c old = .ok v ∧ dictLookup final c.name = some v
  | _, [], _, _, c, _, _, hc, _, _ => absurd hc (List.not_mem_nil _)
  | sc, c0 :: rest, acc, final, c, old, hnd, hc, hold, h => by
      rw [List.map_cons, List.nodup_cons] at hnd
      rw [scoresLoop] at h
      cases h1 : scoreOne sc c0 acc with
      | error e =>
          rw [h1] at h
          cases h
      | ok acc1 =>
          rw [h1] at h
          rcases List.mem_cons.mp hc with hcc | hcc
          · subst hcc
            rw [scoreOne_eq _ _ _ _ hold] at h1
            cases h2 : storedScore sc c old with
            | error e =>
                rw [h2] at h1
                cases h1
            | ok v =>
                rw [h2] at h1
                cases h1
                refine ⟨v, rfl, ?_⟩
                have hne : ∀ cr ∈ rest, cr.name ≠ c.name := by
                  intro cr hcr he
                  exact hnd.1 (he ▸ List.mem_map_of_mem Criterion.name hcr)
                rw [scoresLoop_notmem sc rest _ final h _ hne]
                exact dictLookup_insert_self _ _ _
          · have hne : c0.name ≠ c.name := by
              intro he
              exact hnd.1 (he ▸ List.mem_map_of_mem Criterion.name hcc)
            have hold1 : dictLookup acc1 c.name = some old := by
              rw [scoreOne_other _ _ _ _ h1 _ hne]
              exact hold
            exact scoresLoop_stored sc rest acc1 final c old hnd.2 hcc hold1 h

/-! ## Pipeline destructuring lemmas -/

theorem dictLookup_isSome_of_any (fs : List (String × JValue)) (k : String)
    (h : (fs.any (fun kv => kv.1 = k)) = true) :
    ∃ v, dictLookup fs k = some v := by
  induction fs with
  | nil => simp at h
  | cons kv rest ih =>
      obtain ⟨k0, v0⟩ := kv
      rw [List.any_cons, Bool.or_eq_true] at h
      by_cases h0 : k0 = k
      · exact ⟨v0, by simp [dictLookup, h0]⟩
      · rcases h with h | h
        · exact absurd (of_decide_eq_true h) h0
        · obtain ⟨v, hv⟩ := ih h
          exact ⟨v, by simp [dictLookup, h0, hv]⟩

theorem pySubscript_ok (j : JValue) (k : String) (v : JValue)
    (h : pySubscript j k = .ok v) :
    ∃ fs, j = .jobj fs ∧ dictLookup fs k = some v := by
  cases j with
  | jobj fs =>
      refine ⟨fs, rfl, ?_⟩
      simp only [pySubscript] at h
      split at h
      · cases h
        assumption
      · cases h
  | jnull => cases h
  | jbool b => cases h
  | jint n => cases h
  | jstr s => cases h
  | jarr xs => cases h

theorem extractMAS_ok_cases (filename : String) (criteria : List Criterion)
    (response : Option JValue) (r : ExtractionResult)
    (h : extract_metadata_and_scores filename criteria response = .ok r) :
    r = baseResult filename criteria ∨
      ∃ j, responseParsedContent response = .parsed j ∧
        masCore filename criteria j = .ok r := by
  unfold extract_metadata_and_scores at h
  split at h
  · cases h
  · cases h
    exact Or.inl rfl
  · cases h
    exact Or.inl rfl
  · rename_i j heq
    exact Or.inr ⟨j, heq, h⟩

theorem masCore_parts (filename : String) (criteria : List Criterion)
    (parsed : JValue) (r : ExtractionResult)
    (h : masCore filename criteria parsed = .ok r) :
    metadataStage parsed defaultMetadata = .ok r.metadata ∧
      scoresStage criteria parsed (evaluate_work_fallback criteria) =
        .ok r.scores ∧
      recsStage parsed (generate_recommendations_fallback filename) =
        .ok r.recommendations := by
  unfold masCore at h
  split at h
  · cases h
  · split at h
    · cases h
    · split at h
      · cases h
      · cases h
        exact ⟨by assumption, by assumption, by assumption⟩

theorem storedScore_cases (sc : List (String × JValue)) (crit : Criterion)
    (old v : Int) (hm : 0 ≤ crit.max_score)
    (h : storedScore sc crit old = .ok v) :
    v = old ∨ (0 ≤ v ∧ v ≤ crit.max_score) := by
  unfold storedScore at h
  split at h
  · split at h
    · split at h
      · cases h
        rename_i n _ hpos
        right
        unfold clampScore at hpos ⊢
        split
        · omega
        · rename_i hr
          push_neg at hr
          omega
      · cases h
        exact Or.inl rfl
    · cases h
  · cases h
    exact Or.inl rfl
  · cases h
    exact Or.inl rfl

theorem scoresStage_lookup (criteria : List Criterion) (parsed : JValue)
    (base scs : List (String × Int))
    (h : scoresStage criteria parsed base = .ok scs) (c : Criterion)
    (hc : c ∈ criteria) (hnd : (criteria.map Criterion.name).Nodup)
    (old : Int) (hold : dictLookup base c.name = some old)
    (hm : 0 ≤ c.max_score) :
    dictLookup scs c.name = some old ∨
      ∃ v, dictLookup scs c.name = some v ∧ 0 ≤ v ∧ v ≤ c.max_score := by
  unfold scoresStage at h
  split at h
  · cases h
  · cases h
    exact Or.inl hold
  · split at h
    · cases h
    · obtain ⟨v, hst, hlk⟩ := scoresLoop_stored _ criteria base scs c old
        hnd hc hold h
      rcases storedScore_cases _ c old v hm hst with hv | hv
      · subst hv
        exact Or.inl hlk
      · exact Or.inr ⟨v, hlk, hv⟩
    · cases h
      exact Or.inl hold

theorem scoresStage_isSome (criteria : List Criterion) (parsed : JValue)
    (base scs : List (String × Int))
    (h : scoresStage criteria parsed base = .ok scs) (name : String)
    (hs : (dictLookup base name).isSome) :
    (dictLookup scs name).isSome := by
  unfold scoresStage at h
  split at h
  · cases h
  · cases h
    exact hs
  · split at h
    · cases h
    · exact scoresLoop_isSome_mono _ criteria base scs h name hs
    · cases h
      exact hs

theorem recsStage_shape (parsed : JValue) (cur out : List String)
    (h : recsStage parsed cur = .ok out) :
    out = cur ∨ ∃ cand, recsCandidate parsed = some cand ∧
      recsValid cand = true ∧ out = recsStrsOf cand := by
  unfold recsStage at h
  split at h
  · cases h
  · cases h
    exact Or.inl rfl
  · split at h
    · cases h
    · next recs heq =>
        split at h
        · cases h
          rename_i hval
          obtain ⟨fs, hfs, hl⟩ := pySubscript_ok parsed "recommendations" _ heq
          subst hfs
          exact Or.inr ⟨recs, by simp [recsCandidate, hl], hval, rfl⟩
        · cases h
          exact Or.inl rfl
    · cases h
      exact Or.inl rfl

/-! # The claims -/

/-- **C1 (counterexample).**  The claim quantifies over non-negative
`max_score`.  With `max_score = 0` and the AI absent, the fallback scorer
stores `max(1, 0 - 1) = 1`, which lies outside `[0, 0]`. -/
theorem c1_counterexample :
    extract_metadata_and_scores "work.txt" [⟨"критерий", 0⟩] none =
      .ok ⟨defaultMetadata, [("критерий", 1)],
        generate_recommendations_fallback "work.txt"⟩ ∧ ¬ ((1 : Int) ≤ 0) :=
  ⟨by decide, by decide⟩

/-- **C1 (amended).**  For criteria with pairwise-distinct names (the data
model's uniqueness invariant) and positive `max_score`, whenever
`extract_metadata_and_scores` returns a result (it can instead raise
`TypeError` on structurally malformed AI output, see C2), the scores
mapping has an entry for every criterion and every stored score lies in
`[0, max_score]`. -/
theorem c1_scores_complete_and_in_range (filename : String)
    (criteria : List Criterion) (response : Option JValue)
    (r : ExtractionResult) (hnd : (criteria.map Criterion.name).Nodup)
    (hm : ∀ c ∈ criteria, 1 ≤ c.max_score)
    (h : extract_metadata_and_scores filename criteria response = .ok r) :
    ∀ c ∈ criteria, ∃ v, dictLookup r.scores c.name = some v ∧
      0 ≤ v ∧ v ≤ c.max_score := by
  intro c hc
  have hbase : dictLookup (evaluate_work_fallback criteria) c.name =
      some (max 1 (c.max_score - 1)) :=
    evaluateWorkAux_mem criteria [] c hc hnd
  have hmb := hm c hc
  have h0 : (0 : Int) ≤ max 1 (c.max_score - 1) := by
    have := le_max_left (1 : Int) (c.max_score - 1)
    omega
  have h1 : max 1 (c.max_score - 1) ≤ c.max_score := by
    rw [max_le_iff]
    omega
  rcases extractMAS_ok_cases filename criteria response r h with hb | ⟨j, hj, hcore⟩
  · subst hb
    exact ⟨max 1 (c.max_score - 1), hbase, h0, h1⟩
  · obtain ⟨hmd, hscs, hrecs⟩ := masCore_parts filename criteria j r hcore
    rcases scoresStage_lookup criteria j (evaluate_work_fallback criteria)
        r.scores hscs c hc hnd _ hbase (by omega) with hl | ⟨v, hl, hv⟩
    · exact ⟨max 1 (c.max_score - 1), hl, h0, h1⟩
    · exact ⟨v, hl, hv.1, hv.2⟩

/-- **C1 (witness).**  The amended theorem applied at one criterion of
maximum 4 with the AI absent: the fallback 3 is stored and lies in `[0,4]`. -/
theorem c1_scores_complete_and_in_range_witness :
    ∃ v, dictLookup (ExtractionResult.mk defaultMetadata [("критерий", 3)]
        (generate_recommendations_fallback "w")).scores "критерий" = some v ∧
      0 ≤ v ∧ v ≤ (4 : Int) :=
  c1_scores_complete_and_in_range "w" [⟨"критерий", 4⟩] none
    ⟨defaultMetadata, [("критерий", 3)], generate_recommendations_fallback "w"⟩
    (by decide) (by decide) (by decide) ⟨"критерий", 4⟩ (by decide)

/-- **C2 (counterexample).**  An AI response whose `metadata` field is the
empty dict is adopted wholesale (line 190 validates only
`isinstance(..., dict)`), so the returned metadata lacks all four fields:
the result is not schema-valid in the claimed sense. -/
theorem c2_counterexample :
    (extract_metadata_and_scores "f.txt" []
        (some (mkResponse "\x7b\"metadata\": \x7b\x7d\x7d"))).map
      ExtractionResult.metadata = .ok (.jobj []) ∧
      pySubscript (.jobj []) "author" = .error .keyError :=
  ⟨by decide, by decide⟩

/-- **C2 (amended).**  `extract_metadata_and_scores` can raise `TypeError`
on structurally malformed AI values (e.g. a non-integer score), and an
AI-supplied metadata dict replaces the defaults without field validation;
but whenever the function does return, the result has a scores entry for
every criterion and exactly two recommendation strings. -/
theorem c2_structured_when_returns (filename : String)
    (criteria : List Criterion) (response : Option JValue)
    (r : ExtractionResult)
    (h : extract_metadata_and_scores filename criteria response = .ok r) :
    (∀ c ∈ criteria, (dictLookup r.scores c.name).isSome) ∧
      r.recommendations.length = 2 := by
  constructor
  · intro c hc
    have hbase : (dictLookup (evaluate_work_fallback criteria) c.name).isSome :=
      evaluateWorkAux_isSome criteria [] c hc
    rcases extractMAS_ok_cases _ _ _ _ h with hb | ⟨j, hj, hcore⟩
    · subst hb
      exact hbase
    · obtain ⟨_, hscs, _⟩ := masCore_parts _ _ _ _ hcore
      exact scoresStage_isSome criteria j _ r.scores hscs c.name hbase
  · rcases extractMAS_ok_cases _ _ _ _ h with hb | ⟨j, hj, hcore⟩
    · subst hb
      rfl
    · obtain ⟨_, _, hrecs⟩ := masCore_parts _ _ _ _ hcore
      rcases recsStage_shape j _ r.recommendations hrecs with
        he | ⟨cand, hcand, hval, he⟩
      · rw [he]
        rfl
      · rw [he]
        have hlen : cand.length = 2 := by
          have := of_decide_eq_true hval
          exact this.1
        simp [recsStrsOf, hlen]

/-- **C2 (witness).**  The amended theorem at a one-criterion call with the
AI absent. -/
theorem c2_structured_when_returns_witness :
    (∀ c ∈ ([⟨"критерий", 4⟩] : List Criterion),
      (dictLookup (ExtractionResult.mk defaultMetadata [("критерий", 3)]
        (generate_recommendations_fallback "w")).scores c.name).isSome) ∧
      (ExtractionResult.mk defaultMetadata [("критерий", 3)]
        (generate_recommendations_fallback "w")).recommendations.length = 2 :=
  c2_structured_when_returns "w" [⟨"критерий", 4⟩] none
    ⟨defaultMetadata, [("критерий", 3)], generate_recommendations_fallback "w"⟩
    (by decide)

/-- Evaluation of `storedScore` when the AI supplied a dict entry with an
integer score for the criterion. -/
theorem storedScore_of_entry (sc : List (String × JValue)) (c : Criterion)
    (entry : List (String × JValue)) (s old : Int)
    (hentry : dictLookup sc c.name = some (.jobj entry))
    (hs : dictGetD entry "score" (.jint 0) = .jint s) :
    storedScore sc c old =
      if clampScore s c.max_score > 0 then .ok (clampScore s c.max_score)
      else .ok old := by
  unfold storedScore
  simp only [hentry, hs, intLike]

/-- `scoresStage` reduces to the per-criterion loop when the parsed content
is a dict carrying a `scores` dict. -/
theorem scoresStage_dict (criteria : List Criterion)
    (pfs sc : List (String × JValue)) (base out : List (String × Int))
    (hsc : dictLookup pfs "scores" = some (.jobj sc))
    (h : scoresStage criteria (.jobj pfs) base = .ok out) :
    scoresLoop sc criteria base = .ok out := by
  unfold scoresStage at h
  rw [show pyIn "scores" (.jobj pfs) = .ok true from by
    simp [pyIn, dictLookup_any pfs "scores" _ hsc]] at h
  rw [show pySubscript (.jobj pfs) "scores" = .ok (.jobj sc) from by
    simp [pySubscript, hsc]] at h
  exact h

/-- **C4 (counterexample).**  An AI score of −5 for a criterion with
maximum 4 clamps to 0, and line 206 then discards the 0 in favour of the
fallback 3 — not the claimed `max(0, min(-5, 4)) = 0`; the correction note
exists only in a log line, the stored scores being bare integers. -/
theorem c4_counterexample :
    (extract_metadata_and_scores "f" [⟨"а", 4⟩]
        (some (mkResponse
          "\x7b\"scores\": \x7b\"а\": \x7b\"score\": -5\x7d\x7d\x7d"))).map
      ExtractionResult.scores = .ok [("а", 3)] ∧
      (3 : Int) ≠ max 0 (min (-5) 4) :=
  ⟨by decide, by decide⟩

/-- **C4 (amended).**  For a known criterion (distinct names, positive
maximum) whose AI entry carries an integer score `s`: when `s > max_score`
the stored score is `max(0, min(s, max_score)) = max_score`; when `s < 0`
the clamp produces 0, which is then discarded, the fallback
`max(1, max_score − 1)` being stored instead; the annotated reason is only
logged, never stored. -/
theorem c4_out_of_range_clamped (filename : String)
    (criteria : List Criterion) (response : Option JValue)
    (r : ExtractionResult) (c : Criterion) (pfs sc entry : List (String × JValue))
    (s : Int) (hnd : (criteria.map Criterion.name).Nodup) (hc : c ∈ criteria)
    (hm : 1 ≤ c.max_score)
    (hp : responseParsedContent response = .parsed (.jobj pfs))
    (hsc : dictLookup pfs "scores" = some (.jobj sc))
    (hentry : dictLookup sc c.name = some (.jobj entry))
    (hs : dictGetD entry "score" (.jint 0) = .jint s)
    (h : extract_metadata_and_scores filename criteria response = .ok r) :
    (c.max_score < s → dictLookup r.scores c.name = some c.max_score) ∧
      (s < 0 → dictLookup r.scores c.name = some (max 1 (c.max_score - 1))) := by
  unfold extract_metadata_and_scores at h
  rw [hp] at h
  obtain ⟨_, hscs, _⟩ := masCore_parts _ _ _ _ h
  have hloop := scoresStage_dict criteria pfs sc _ r.scores hsc hscs
  have hold : dictLookup (evaluate_work_fallback criteria) c.name =
      some (max 1 (c.max_score - 1)) := evaluateWorkAux_mem criteria [] c hc hnd
  obtain ⟨v, hstv, hlk⟩ := scoresLoop_stored sc criteria _ r.scores c _ hnd hc hold hloop
  rw [storedScore_of_entry sc c entry s _ hentry hs] at hstv
  constructor
  · intro hgt
    have hcl : clampScore s c.max_score = c.max_score := by
      unfold clampScore
      rw [if_pos (Or.inr hgt)]
      rw [max_eq_right (by omega : (0 : Int) ≤ s)]
      exact min_eq_right (by omega)
    rw [hcl, if_pos (by omega)] at hstv
    cases hstv
    exact hlk
  · intro hlt
    have hcl : clampScore s c.max_score = 0 := by
      unfold clampScore
      rw [if_pos (Or.inl hlt)]
      rw [max_eq_left (by omega : s ≤ (0 : Int))]
      exact min_eq_left (by omega)
    rw [hcl, if_neg (by omega)] at hstv
    cases hstv
    exact hlk

/-- **C4 (witness).**  The amended theorem at `s = 10`, `max_score = 4`:
the stored score is 4. -/
theorem c4_out_of_range_clamped_witness :
    ((4 : Int) < 10 → dictLookup (ExtractionResult.mk defaultMetadata
        [("а", 4)] (generate_recommendations_fallback "f")).scores "а" =
      some 4) ∧
      ((10 : Int) < 0 → dictLookup (ExtractionResult.mk defaultMetadata
        [("а", 4)] (generate_recommendations_fallback "f")).scores "а" =
      some (max 1 (4 - 1))) :=
  c4_out_of_range_clamped "f" [⟨"а", 4⟩]
    (some (mkResponse
      "\x7b\"scores\": \x7b\"а\": \x7b\"score\": 10\x7d\x7d\x7d"))
    ⟨defaultMetadata, [("а", 4)], generate_recommendations_fallback "f"⟩
    ⟨"а", 4⟩ [("scores", .jobj [("а", .jobj [("score", .jint 10)])])]
    [("а", .jobj [("score", .jint 10)])] [("score", .jint 10)] 10
    (by decide) (by decide) (by decide) (by decide) (by decide) (by decide)
    (by decide) (by decide)

/-- **C5 (confirmed).**  For a known criterion whose AI entry carries an
integer score that clamps to 0 (in particular a proposed score of exactly
0), the returned mapping keeps the fallback value `max(1, max_score − 1)`,
which is positive. -/
theorem c5_zero_never_overwrites (filename : String)
    (criteria : List Criterion) (response : Option JValue)
    (r : ExtractionResult) (c : Criterion) (pfs sc entry : List (String × JValue))
    (s : Int) (hnd : (criteria.map Criterion.name).Nodup) (hc : c ∈ criteria)
    (hp : responseParsedContent response = .parsed (.jobj pfs))
    (hsc : dictLookup pfs "scores" = some (.jobj sc))
    (hentry : dictLookup sc c.name = some (.jobj entry))
    (hs : dictGetD entry "score" (.jint 0) = .jint s)
    (hclamp : clampScore s c.max_score = 0)
    (h : extract_metadata_and_scores filename criteria response = .ok r) :
    dictLookup r.scores c.name = some (max 1 (c.max_score - 1)) ∧
      0 < max 1 (c.max_score - 1) := by
  unfold extract_metadata_and_scores at h
  rw [hp] at h
  obtain ⟨_, hscs, _⟩ := masCore_parts _ _ _ _ h
  have hloop := scoresStage_dict criteria pfs sc _ r.scores hsc hscs
  have hold : dictLookup (evaluate_work_fallback criteria) c.name =
      some (max 1 (c.max_score - 1)) := evaluateWorkAux_mem criteria [] c hc hnd
  obtain ⟨v, hstv, hlk⟩ := scoresLoop_stored sc criteria _ r.scores c _ hnd hc hold hloop
  rw [storedScore_of_entry sc c entry s _ hentry hs, hclamp,
    if_neg (by omega)] at hstv
  cases hstv
  refine ⟨hlk, ?_⟩
  have := le_max_left (1 : Int) (c.max_score - 1)
  omega

/-- **C5 (witness).**  A proposed score of exactly 0 for a criterion of
maximum 4: the fallback 3 is kept. -/
theorem c5_zero_never_overwrites_witness :
    dictLookup (ExtractionResult.mk defaultMetadata [("а", 3)]
        (generate_recommendations_fallback "f")).scores "а" =
      some (max 1 ((4 : Int) - 1)) ∧ 0 < max 1 ((4 : Int) - 1) :=
  c5_zero_never_overwrites "f" [⟨"а", 4⟩]
    (some (mkResponse
      "\x7b\"scores\": \x7b\"а\": \x7b\"score\": 0\x7d\x7d\x7d"))
    ⟨defaultMetadata, [("а", 3)], generate_recommendations_fallback "f"⟩
    ⟨"а", 4⟩ [("scores", .jobj [("а", .jobj [("score", .jint 0)])])]
    [("а", .jobj [("score", .jint 0)])] [("score", .jint 0)] 0
    (by decide) (by decide) (by decide) (by decide) (by decide) (by decide)
    (by decide) (by decide)

/-- Full behaviour of `recsStage` on a returned (non-raising) call: the
output is the current pair when there is no list candidate, the candidate
strings exactly when the candidate validates, and the current pair exactly
otherwise. -/
theorem recsStage_eval (parsed : JValue) (cur out : List String)
    (h : recsStage parsed cur = .ok out) :
    (recsCandidate parsed = none → out = cur) ∧
      (∀ cand, recsCandidate parsed = some cand →
        (recsValid cand = true → out = recsStrsOf cand) ∧
        (recsValid cand = false → out = cur)) := by
  cases parsed with
  | jobj fs =>
      cases hany : fs.any (fun kv => kv.1 = "recommendations") with
      | false =>
          have hnone : dictLookup fs "recommendations" = none :=
            dictLookup_of_any_false fs _ hany
          unfold recsStage at h
          rw [show pyIn "recommendations" (.jobj fs) = .ok false from by
            simp [pyIn, hany]] at h
          cases h
          refine ⟨fun _ => rfl, fun cand hcand => ?_⟩
          rw [recsCandidate, hnone] at hcand
          cases hcand
      | true =>
          obtain ⟨v, hv⟩ := dictLookup_isSome_of_any fs _ hany
          unfold recsStage at h
          rw [show pyIn "recommendations" (.jobj fs) = .ok true from by
            simp [pyIn, hany]] at h
          rw [show pySubscript (.jobj fs) "recommendations" = .ok v from by
            simp [pySubscript, hv]] at h
          cases v with
          | jarr recs =>
              have hcand : recsCandidate (.jobj fs) = some recs := by
                rw [recsCandidate, hv]
              have h' : (if recsValid recs = true then
                    Except.ok (recsStrsOf recs) else Except.ok cur) =
                  (Except.ok out : Except PyErr (List String)) := h
              refine ⟨fun hn => by simp [hcand] at hn, fun cand hc => ?_⟩
              rw [hcand] at hc
              cases hc
              cases hval : recsValid recs with
              | true =>
                  rw [hval, if_pos rfl] at h'
                  cases h'
                  exact ⟨fun _ => rfl, fun hf => absurd hf (by decide)⟩
              | false =>
                  rw [hval, if_neg (by decide)] at h'
                  cases h'
                  exact ⟨fun ht => absurd ht (by decide), fun _ => rfl⟩
          | jnull =>
              cases h
              refine ⟨fun _ => rfl, fun cand hcand => ?_⟩
              rw [recsCandidate, hv] at hcand
              cases hcand
          | jbool b =>
              cases h
              refine ⟨fun _ => rfl, fun cand hcand => ?_⟩
              rw [recsCandidate, hv] at hcand
              cases hcand
          | jint n =>
              cases h
              refine ⟨fun _ => rfl, fun cand hcand => ?_⟩
              rw [recsCandidate, hv] at hcand
              cases hcand
          | jstr s =>
              cases h
              refine ⟨fun _ => rfl, fun cand hcand => ?_⟩
              rw [recsCandidate, hv] at hcand
              cases hcand
          | jobj gs =>
              cases h
              refine ⟨fun _ => rfl, fun cand hcand => ?_⟩
              rw [recsCandidate, hv] at hcand
              cases hcand
  | jarr xs =>
      unfold recsStage at h
      cases hb : xs.any (fun x => x = .jstr "recommendations") with
      | true =>
          rw [show pyIn "recommendations" (.jarr xs) = .ok true from by
            simp [pyIn, hb]] at h
          cases h
      | false =>
          rw [show pyIn "recommendations" (.jarr xs) = .ok false from by
            simp [pyIn, hb]] at h
          cases h
          exact ⟨fun _ => rfl, fun cand hcand => by cases hcand⟩
  | jstr s =>
      unfold recsStage at h
      rw [show pyIn "recommendations" (.jstr s) =
        .ok (containsSub "recommendations".toList s.toList) from rfl] at h
      cases hb : containsSub "recommendations".toList s.toList with
      | true =>
          rw [hb] at h
          cases h
      | false =>
          rw [hb] at h
          cases h
          exact ⟨fun _ => rfl, fun cand hcand => by cases hcand⟩
  | jnull =>
      unfold recsStage at h
      cases h
  | jbool b =>
      unfold recsStage at h
      cases h
  | jint n =>
      unfold recsStage at h
      cases h

/-- **C6 (confirmed).**  The recommendation overlay is all-or-nothing:
whenever the call returns, the final recommendations are exactly the
fallback pair when there is no AI list candidate or the candidate fails
validation (two non-empty strings, ≤ 60 words combined, each with a
sentence terminator), and exactly the AI pair when it passes — never a
mix. -/
theorem c6_recommendations_all_or_nothing (filename : String)
    (criteria : List Criterion) (response : Option JValue)
    (r : ExtractionResult)
    (h : extract_metadata_and_scores filename criteria response = .ok r) :
    (recsCandidateOfResponse response = none →
      r.recommendations = generate_recommendations_fallback filename) ∧
      (∀ cand, recsCandidateOfResponse response = some cand →
        (recsValid cand = true → r.recommendations = recsStrsOf cand) ∧
        (recsValid cand = false →
          r.recommendations = generate_recommendations_fallback filename)) := by
  unfold extract_metadata_and_scores at h
  cases hrp : responseParsedContent response with
  | raises e =>
      rw [hrp] at h
      cases h
  | noAI =>
      rw [hrp] at h
      cases h
      refine ⟨fun _ => rfl, fun cand hcand => ?_⟩
      rw [recsCandidateOfResponse, hrp] at hcand
      cases hcand
  | caught =>
      rw [hrp] at h
      cases h
      refine ⟨fun _ => rfl, fun cand hcand => ?_⟩
      rw [recsCandidateOfResponse, hrp] at hcand
      cases hcand
  | parsed j =>
      rw [hrp] at h
      obtain ⟨_, _, hrecs⟩ := masCore_parts _ _ _ _ h
      have heval := recsStage_eval j _ _ hrecs
      have hco : recsCandidateOfResponse response = recsCandidate j := by
        rw [recsCandidateOfResponse, hrp]
      rw [hco]
      exact heval

/-- **C6 (witness).**  With the AI absent there is no candidate and the
fallback pair is returned. -/
theorem c6_recommendations_all_or_nothing_witness :
    (recsCandidateOfResponse none = none →
      (ExtractionResult.mk defaultMetadata [("а", 3)]
        (generate_recommendations_fallback "f")).recommendations =
        generate_recommendations_fallback "f") ∧
      (∀ cand, recsCandidateOfResponse none = some cand →
        (recsValid cand = true →
          (ExtractionResult.mk defaultMetadata [("а", 3)]
            (generate_recommendations_fallback "f")).recommendations =
            recsStrsOf cand) ∧
        (recsValid cand = false →
          (ExtractionResult.mk defaultMetadata [("а", 3)]
            (generate_recommendations_fallback "f")).recommendations =
            generate_recommendations_fallback "f")) :=
  c6_recommendations_all_or_nothing "f" [⟨"а", 4⟩] none
    ⟨defaultMetadata, [("а", 3)], generate_recommendations_fallback "f"⟩
    (by decide)

/-- The collection loop keeps `max_total_score` equal to the sum of the
collected criteria's maxima. -/
theorem collectCriteria_sum :
    ∀ (ms : List (List Char × Nat)) (acc : List Criterion × Int),
    acc.2 = (acc.1.map Criterion.max_score).sum →
    (collectCriteria ms acc).2 =
      ((collectCriteria ms acc).1.map Criterion.max_score).sum
  | [], _, h => h
  | m :: rest, acc, h => by
      rw [collectCriteria]
      split
      · refine collectCriteria_sum rest _ ?_
        simp [h]
      · exact collectCriteria_sum rest acc h

/-- `sum(c['max_score'] for c in ...)` over serialised criteria equals the
sum of their maxima. -/
theorem sumMaxScores_map : ∀ cs : List Criterion,
    sumMaxScores (cs.map criterionToJ) = .ok ((cs.map Criterion.max_score).sum)
  | [] => rfl
  | c :: rest => by
      rw [List.map_cons, List.map_cons, List.sum_cons]
      show (match sumMaxScores (rest.map criterionToJ) with
          | .ok t => (Except.ok (c.max_score + t) : Except PyErr Int)
          | .error e => .error e) = _
      rw [sumMaxScores_map rest]

/-- The sum/total relationship the C3 theorem asserts of a returned
criteria structure. -/
def totalMatchesSum (j : JValue) : Prop :=
  ∃ fs items t, j = .jobj fs ∧
    pyIter (dictGetD fs "criteria" (.jarr [])) = .ok items ∧
    sumMaxScores items = .ok t ∧
    pyEqInt (dictGetD fs "max_total_score" (.jint 0)) t = true

/-- The AI-path reconciliation always restores `max_total_score` to the
computed sum. -/
theorem criteriaReconcile_total (j0 j : JValue)
    (h : criteriaReconcile j0 = .ok j) : totalMatchesSum j := by
  unfold criteriaReconcile at h
  split at h
  · next fs0 =>
      cases hiter : pyIter (dictGetD fs0 "criteria" (.jarr [])) with
      | error e =>
          rw [hiter] at h
          cases h
      | ok items =>
          rw [hiter] at h
          have h2 : (match sumMaxScores items with
              | .error e => (.error e : Except PyErr JValue)
              | .ok total =>
                  if ¬ pyEqInt (dictGetD fs0 "max_total_score" (.jint 0))
                      total = true then
                    .ok (.jobj (dictInsert fs0 "max_total_score" (.jint total)))
                  else .ok (.jobj fs0)) = .ok j := h
          clear h
          cases hsum : sumMaxScores items with
          | error e =>
              rw [hsum] at h2
              cases h2
          | ok total =>
              rw [hsum] at h2
              have h3 : (if ¬ pyEqInt (dictGetD fs0 "max_total_score"
                    (.jint 0)) total = true then
                  (.ok (.jobj (dictInsert fs0 "max_total_score"
                    (.jint total))) : Except PyErr JValue)
                else .ok (.jobj fs0)) = .ok j := h2
              clear h2
              by_cases heq : pyEqInt (dictGetD fs0 "max_total_score" (.jint 0))
                  total = true
              · rw [if_neg (by simp [heq])] at h3
                cases h3
                exact ⟨fs0, items, total, rfl, hiter, hsum, heq⟩
              · rw [if_pos (by simpa using heq)] at h3
                cases h3
                refine ⟨dictInsert fs0 "max_total_score" (.jint total), items,
                  total, rfl, ?_, hsum, ?_⟩
                · rw [show dictGetD (dictInsert fs0 "max_total_score"
                    (.jint total)) "criteria" (.jarr []) =
                      dictGetD fs0 "criteria" (.jarr []) from by
                      rw [dictGetD, dictGetD,
                        dictLookup_insert_ne _ _ _ _ (by decide)]]
                  exact hiter
                · rw [show dictGetD (dictInsert fs0 "max_total_score"
                    (.jint total)) "max_total_score" (.jint 0) = .jint total from by
                      rw [dictGetD, dictLookup_insert_self]
                      rfl]
                  simp [pyEqInt, intLike]
  · cases h

/-- The shape the fallback returns satisfies the sum relationship whenever
the stored total is the sum. -/
theorem fallback_result_total (pair : List Criterion × Int)
    (hsum : pair.2 = (pair.1.map Criterion.max_score).sum) :
    totalMatchesSum (.jobj [("criteria", .jarr (pair.1.map criterionToJ)),
      ("max_total_score", .jint pair.2)]) := by
  refine ⟨[("criteria", .jarr (pair.1.map criterionToJ)),
      ("max_total_score", .jint pair.2)], pair.1.map criterionToJ,
      (pair.1.map Criterion.max_score).sum, rfl, rfl, sumMaxScores_map pair.1,
      ?_⟩
  simp [dictGetD, dictLookup, pyEqInt, intLike, hsum]

/-- Without a declared total in the text, the regex fallback's
`max_total_score` is the computed sum. -/
theorem extract_criteria_fallback_total (text : String)
    (hdecl : matchDeclaredTotal (normalizeText text) = none) :
    totalMatchesSum (extract_criteria_fallback text) := by
  unfold extract_criteria_fallback
  simp only [hdecl]
  exact fallback_result_total _ (by
    split
    · rfl
    · exact collectCriteria_sum _ ([], 0) rfl)

/-- **C3 (counterexample).**  On the fallback path a textually declared
total overrides the computed sum (lines 190–195), the opposite of the AI
path: the rubric text declares 50 while its criteria sum to 4, and the
returned `max_total_score` is 50. -/
theorem c3_counterexample :
    extract_criteria "- Критерий первый 0-4 балла Максимальный балл - 50"
        none =
      .ok (.jobj [("criteria", .jarr [.jobj [("name", .jstr "Критерий первый"),
          ("max_score", .jint 4)]]),
        ("max_total_score", .jint 50)]) ∧ (50 : Int) ≠ 4 :=
  ⟨by decide, by decide⟩

/-- **C3 (amended).**  The AI path always reconciles `max_total_score` to
the computed sum, and the regex fallback does so whenever the text does
not itself declare a total (`Максимальный балл - N`); a declared total
that disagrees with the computed sum overrides it on the fallback path. -/
theorem c3_total_matches_sum (text : String) (response : Option JValue)
    (j : JValue) (hdecl : matchDeclaredTotal (normalizeText text) = none)
    (h : extract_criteria text response = .ok j) : totalMatchesSum j := by
  unfold extract_criteria at h
  split at h
  · cases h
  · split at h
    · cases h
    · cases h
      exact extract_criteria_fallback_total text hdecl
    · cases h
      exact extract_criteria_fallback_total text hdecl
    · cases hrec : criteriaReconcile _ with
      | ok j' =>
          rw [hrec] at h
          cases h
          exact criteriaReconcile_total _ _ hrec
      | error e =>
          rw [hrec] at h
          split at h
          next heq2 => cases heq2
          next =>
            injection h with h2
            exact h2 ▸ extract_criteria_fallback_total text hdecl
          next => cases h

/-- **C3 (witness).**  The amended theorem on a rubric without a declared
total, with the AI absent. -/
theorem c3_total_matches_sum_witness :
    totalMatchesSum (.jobj [("criteria", .jarr [.jobj
        [("name", .jstr "Критерий первый"), ("max_score", .jint 4)]]),
      ("max_total_score", .jint 4)]) :=
  c3_total_matches_sum "- Критерий первый 0-4 балла" none _ (by decide)
    (by decide)

/-! ## Cache lemmas -/

theorem dictLookup_append_self {α : Type} (l : List (String × α)) (k : String)
    (v : α) (h : dictLookup l k = none) :
    dictLookup (l ++ [(k, v)]) k = some v := by
  induction l with
  | nil => simp [dictLookup]
  | cons kv rest ih =>
      obtain ⟨k0, v0⟩ := kv
      by_cases h0 : k0 = k
      · simp [dictLookup, h0] at h
      · simp [dictLookup, h0] at h ⊢
        exact ih h

theorem dictLookup_tail_none {α : Type} (l : List (String × α)) (k : String)
    (h : dictLookup l k = none) : dictLookup l.tail k = none := by
  cases l with
  | nil => rfl
  | cons kv rest =>
      obtain ⟨k0, v0⟩ := kv
      by_cases h0 : k0 = k
      · simp [dictLookup, h0] at h
      · simp [dictLookup, h0] at h
        exact h

/-- Inserting a fresh key makes it retrievable, whether or not the
entry-count bound evicts the least-recently-used entry. -/
theorem lruSet_lookup_self (entries : List (String × JValue)) (k : String)
    (v : JValue) (h : dictLookup entries k = none) :
    dictLookup (lruSet entries k v) k = some v := by
  unfold lruSet
  rw [h]
  simp only [Option.isSome_none, Bool.false_eq_true, if_false]
  split
  · exact dictLookup_append_self _ _ _ (dictLookup_tail_none _ _ h)
  · exact dictLookup_append_self _ _ _ h

/-- **C7 (confirmed).**  A put (which in this program happens only after a
miss on the key) followed immediately by a get returns the stored value,
unless the tracked byte counter would exceed the 10 MB bound, in which
case the put is skipped, the state is unchanged (nothing is evicted for
size reasons) and the get reports the key absent. -/
theorem c7_cache_round_trip (st : CacheState) (text : String) (v : JValue)
    (rest : List AttemptOutcome)
    (hmiss : dictLookup st.entries (cacheKey text) = none) :
    (query st text (.success v :: rest)).1 = some v ∧
      (st.sizeBytes + jsonBytes v ≤ maxCacheBytes →
        dictLookup (query st text (.success v :: rest)).2.entries
          (cacheKey text) = some v) ∧
      (¬ st.sizeBytes + jsonBytes v ≤ maxCacheBytes →
        dictLookup (query st text (.success v :: rest)).2.entries
          (cacheKey text) = none ∧
        (query st text (.success v :: rest)).2 = st) := by
  unfold query
  rw [hmiss]
  unfold queryLoop
  by_cases hle : st.sizeBytes + jsonBytes v ≤ maxCacheBytes
  · rw [if_pos hle]
    exact ⟨rfl, fun _ => lruSet_lookup_self _ _ _ hmiss, fun hn => absurd hle hn⟩
  · rw [if_neg hle]
    exact ⟨rfl, fun hc => absurd hc hle, fun _ => ⟨hmiss, rfl⟩⟩

/-- **C7 (witness).**  Round trip on the empty cache. -/
theorem c7_cache_round_trip_witness :
    (query ⟨[], 0⟩ "т" [.success (.jstr "x")]).1 = some (.jstr "x") ∧
      ((⟨[], 0⟩ : CacheState).sizeBytes + jsonBytes (.jstr "x") ≤
          maxCacheBytes →
        dictLookup (query ⟨[], 0⟩ "т" [.success (.jstr "x")]).2.entries
          (cacheKey "т") = some (.jstr "x")) ∧
      (¬ (⟨[], 0⟩ : CacheState).sizeBytes + jsonBytes (.jstr "x") ≤
          maxCacheBytes →
        dictLookup (query ⟨[], 0⟩ "т" [.success (.jstr "x")]).2.entries
          (cacheKey "т") = none ∧
        (query ⟨[], 0⟩ "т" [.success (.jstr "x")]).2 = ⟨[], 0⟩) :=
  c7_cache_round_trip ⟨[], 0⟩ "т" (.jstr "x") [] (by decide)

/-- The retry loop returns `None` and leaves the state unchanged when no
attempt succeeds. -/
theorem queryLoop_all_fail :
    ∀ (st : CacheState) (key : String) (outcomes : List AttemptOutcome),
    (∀ o ∈ outcomes, o.isSuccess = false) →
    queryLoop st key outcomes = (none, st)
  | _, _, [], _ => rfl
  | st, key, o :: rest, h => by
      cases o with
      | success v =>
          have := h _ (List.mem_cons_self _ _)
          simp [AttemptOutcome.isSuccess] at this
      | respRateLimited =>
          exact queryLoop_all_fail st key rest
            (fun o ho => h o (List.mem_cons_of_mem _ ho))
      | respError =>
          exact queryLoop_all_fail st key rest
            (fun o ho => h o (List.mem_cons_of_mem _ ho))
      | transportError =>
          exact queryLoop_all_fail st key rest
            (fun o ho => h o (List.mem_cons_of_mem _ ho))

/-- **C8 (confirmed).**  On a cache miss, when every attempt ends in an
HTTP, transport, timeout or rate-limit error — in particular on the final
attempt — `query` returns absent rather than raising: every error branch
of the loop is caught and funnelled into `return None`. -/
theorem c8_query_returns_absent (st : CacheState) (text : String)
    (outcomes : List AttemptOutcome)
    (hmiss : dictLookup st.entries (cacheKey text) = none)
    (hfail : ∀ o ∈ outcomes, o.isSuccess = false) :
    query st text outcomes = (none, st) := by
  unfold query
  rw [hmiss]
  exact queryLoop_all_fail st (cacheKey text) outcomes hfail

/-- **C8 (witness).**  Three failing attempts (the default retry budget)
yield absent. -/
theorem c8_query_returns_absent_witness :
    query ⟨[], 0⟩ "т" [.respError, .transportError, .respRateLimited] =
      (none, (⟨[], 0⟩ : CacheState)) :=
  c8_query_returns_absent ⟨[], 0⟩ "т"
    [.respError, .transportError, .respRateLimited] (by decide) (by decide)

/-! ## Rule-adjuster lemmas -/

/-- One adjustment step never touches other names. -/
theorem adjustStep_lookup_ne (tl : List Char) (crit : Criterion)
    (adjusted : List (String × Int)) (name : String)
    (hne : crit.name ≠ name) :
    dictLookup (adjustStep tl crit adjusted) name = dictLookup adjusted name := by
  unfold adjustStep
  split
  · split <;> exact dictLookup_insert_ne _ _ _ _ hne
  · split
    · split <;> exact dictLookup_insert_ne _ _ _ _ hne
    · rfl

/-- A non-targeted criterion passes through unchanged. -/
theorem adjustStep_not_targeted (tl : List Char) (crit : Criterion)
    (adjusted : List (String × Int))
    (hcr : ¬ (crit.name = noveltyName ∨ crit.name = formattingName)) :
    adjustStep tl crit adjusted = adjusted := by
  unfold adjustStep
  rw [if_neg (fun h => hcr (Or.inl h)), if_neg (fun h => hcr (Or.inr h))]

/-- With no trigger keyword in the text, a targeted criterion is
decremented, floored at 0. -/
theorem adjustStep_no_signal_self (tl : List Char) (crit : Criterion)
    (adjusted : List (String × Int))
    (h1 : ∀ kw ∈ noveltyKeywords, containsSub kw.toList tl = false)
    (h2 : ∀ kw ∈ structureKeywords, containsSub kw.toList tl = false)
    (hcr : crit.name = noveltyName ∨ crit.name = formattingName) :
    dictLookup (adjustStep tl crit adjusted) crit.name =
      some (max 0 (dictGetD adjusted crit.name 0 - 1)) := by
  unfold adjustStep
  rcases hcr with hn | hf
  · rw [if_pos hn]
    rw [show (noveltyKeywords.any fun kw => containsSub kw.toList tl) =
      false from by
        rw [List.any_eq_false]
        intro kw hkw hcc
        rw [h1 kw hkw] at hcc
        exact Bool.false_ne_true hcc]
    rw [if_neg Bool.false_ne_true]
    exact dictLookup_insert_self _ _ _
  · rw [if_neg (fun h => by rw [hf] at h; exact absurd h (by decide)),
      if_pos hf]
    rw [show (structureKeywords.any fun kw => containsSub kw.toList tl) =
      false from by
        rw [List.any_eq_false]
        intro kw hkw hcc
        rw [h2 kw hkw] at hcc
        exact Bool.false_ne_true hcc]
    rw [if_neg Bool.false_ne_true]
    exact dictLookup_insert_self _ _ _

/-- The loop of the adjuster under no-signal text, fully characterised. -/
theorem adjustAux_no_signal :
    ∀ (crits : List Criterion) (tl : List Char)
      (adjusted : List (String × Int)),
    (crits.map Criterion.name).Nodup →
    (∀ kw ∈ noveltyKeywords, containsSub kw.toList tl = false) →
    (∀ kw ∈ structureKeywords, containsSub kw.toList tl = false) →
    ∀ name : String,
    dictLookup (adjustAux tl crits adjusted) name =
      if (name = noveltyName ∨ name = formattingName) ∧
          name ∈ crits.map Criterion.name then
        some (max 0 (dictGetD adjusted name 0 - 1))
      else dictLookup adjusted name
  | [], tl, adjusted, _, _, _, name => by simp [adjustAux]
  | crit :: rest, tl, adjusted, hnd, h1, h2, name => by
      rw [List.map_cons, List.nodup_cons] at hnd
      rw [adjustAux,
        adjustAux_no_signal rest tl _ hnd.2 h1 h2 name]
      by_cases hmem : name ∈ rest.map Criterion.name
      · have hne : crit.name ≠ name := fun he => hnd.1 (he ▸ hmem)
        by_cases htgt : name = noveltyName ∨ name = formattingName
        · rw [if_pos ⟨htgt, hmem⟩,
            if_pos (⟨htgt, by rw [List.map_cons]; exact List.mem_cons_of_mem _ hmem⟩ :
              (name = noveltyName ∨ name = formattingName) ∧
                name ∈ (crit :: rest).map Criterion.name)]
          rw [show dictGetD (adjustStep tl crit adjusted) name 0 =
            dictGetD adjusted name 0 from by
              rw [dictGetD, dictGetD, adjustStep_lookup_ne tl crit adjusted name hne]]
        · rw [if_neg (fun hco => htgt hco.1), if_neg (fun hco => htgt hco.1)]
          exact adjustStep_lookup_ne tl crit adjusted name hne
      · by_cases hcrit : name = crit.name
        · subst hcrit
          by_cases htgt : crit.name = noveltyName ∨ crit.name = formattingName
          · rw [if_neg (fun hco => hmem hco.2),
              if_pos (⟨htgt, by rw [List.map_cons]; exact List.mem_cons_self _ _⟩ :
                (crit.name = noveltyName ∨ crit.name = formattingName) ∧
                  crit.name ∈ (crit :: rest).map Criterion.name)]
            exact adjustStep_no_signal_self tl crit adjusted h1 h2 htgt
          · have hnotin : ¬ ((crit.name = noveltyName ∨
                crit.name = formattingName) ∧
                crit.name ∈ (crit :: rest).map Criterion.name) :=
              fun hco => htgt hco.1
            rw [if_neg (fun hco => hmem hco.2), if_neg hnotin]
            rw [adjustStep_not_targeted tl crit adjusted htgt]
        · have hnotin : ¬ ((name = noveltyName ∨ name = formattingName) ∧
              name ∈ (crit :: rest).map Criterion.name) := by
            intro hco
            rw [List.map_cons] at hco
            rcases List.mem_cons.mp hco.2 with he | he
            · exact hcrit he
            · exact hmem he
          rw [if_neg (fun hco => hmem hco.2), if_neg hnotin]
          exact adjustStep_lookup_ne tl crit adjusted name
            (fun he => hcrit he.symm)

/-- **C9 (confirmed).**  On text containing none of the trigger keywords,
one run of `adjust_scores_with_rules` decrements exactly the two targeted
criteria that occur in the criteria list by 1, floored at 0, leaving every
other name's score unchanged; a second run decrements them by 1 again,
still floored at 0. -/
theorem c9_no_signal_decrements (text : String)
    (scores : List (String × Int)) (criteria : List Criterion)
    (hnd : (criteria.map Criterion.name).Nodup)
    (h1 : ∀ kw ∈ noveltyKeywords,
      containsSub kw.toList (rusLower text.toList) = false)
    (h2 : ∀ kw ∈ structureKeywords,
      containsSub kw.toList (rusLower text.toList) = false) :
    (∀ name : String,
      dictLookup (adjust_scores_with_rules text scores criteria) name =
        if (name = noveltyName ∨ name = formattingName) ∧
            name ∈ criteria.map Criterion.name then
          some (max 0 (dictGetD scores name 0 - 1))
        else dictLookup scores name) ∧
      (∀ name : String,
        dictLookup (adjust_scores_with_rules text
            (adjust_scores_with_rules text scores criteria) criteria) name =
          if (name = noveltyName ∨ name = formattingName) ∧
              name ∈ criteria.map Criterion.name then
            some (max 0 (max 0 (dictGetD scores name 0 - 1) - 1))
          else dictLookup scores name) := by
  have hrun := fun scs =>
    adjustAux_no_signal criteria (rusLower text.toList) scs hnd h1 h2
  refine ⟨hrun scores, fun name => ?_⟩
  rw [show adjust_scores_with_rules text
      (adjust_scores_with_rules text scores criteria) criteria =
      adjustAux (rusLower text.toList)
        criteria (adjust_scores_with_rules text scores criteria) from rfl]
  rw [adjustAux_no_signal criteria (rusLower text.toList) _ hnd h1 h2 name]
  by_cases hc : (name = noveltyName ∨ name = formattingName) ∧
      name ∈ criteria.map Criterion.name
  · rw [if_pos hc, if_pos hc]
    have hfst := hrun scores name
    rw [if_pos hc] at hfst
    rw [dictGetD, show adjust_scores_with_rules text scores criteria =
      adjustAux (rusLower text.toList) criteria scores from rfl, hfst]
    rfl
  · rw [if_neg hc, if_neg hc]
    have hfst := hrun scores name
    rw [if_neg hc] at hfst
    rw [show adjust_scores_with_rules text scores criteria =
      adjustAux (rusLower text.toList) criteria scores from rfl, hfst]

/-- **C9 (witness).**  On no-keyword text, the targeted novelty criterion
drops from 3 to 2. -/
theorem c9_no_signal_decrements_witness :
    dictLookup (adjust_scores_with_rules "абв" [(noveltyName, 3)]
        [⟨noveltyName, 4⟩]) noveltyName =
      (if (noveltyName = noveltyName ∨ noveltyName = formattingName) ∧
          noveltyName ∈ ([⟨noveltyName, 4⟩] : List Criterion).map
            Criterion.name then
        some (max 0 (dictGetD [(noveltyName, 3)] noveltyName 0 - 1))
      else dictLookup [(noveltyName, 3)] noveltyName) :=
  (c9_no_signal_decrements "абв" [(noveltyName, 3)] [⟨noveltyName, 4⟩]
    (by decide) (by decide) (by decide)).1 noveltyName

/-! ## Byte-counter lemmas -/

/-- The retry loop never decreases the byte counter. -/
theorem queryLoop_size_mono :
    ∀ (st : CacheState) (key : String) (outcomes : List AttemptOutcome),
    st.sizeBytes ≤ (queryLoop st key outcomes).2.sizeBytes
  | _, _, [] => le_refl _
  | st, key, .success v :: _ => by
      rw [queryLoop]
      split
      · exact Nat.le_add_right _ _
      · exact le_refl _
  | st, key, .respRateLimited :: rest => queryLoop_size_mono st key rest
  | st, key, .respError :: rest => queryLoop_size_mono st key rest
  | st, key, .transportError :: rest => queryLoop_size_mono st key rest

/-- `load_cache` never decreases the byte counter. -/
theorem load_cache_size_mono :
    ∀ (st : CacheState) (entries : List (String × JValue)),
    st.sizeBytes ≤ (load_cache st entries).sizeBytes
  | _, [] => le_refl _
  | st, (k, v) :: rest => by
      rw [load_cache]
      split
      · exact le_trans (Nat.le_add_right _ _)
          (load_cache_size_mono ⟨lruSet st.entries k v,
            st.sizeBytes + jsonBytes v⟩ rest)
      · exact le_refl _

/-- **C10 (confirmed).**  (i) `query` and (ii) `load_cache` never decrease
`current_cache_size_bytes`; (iii) inserting into a full cache evicts an
entry by the 1000-entry LRU bound without subtracting anything — the
counter grows by the full inserted size while the entry count stays at
1000, so the counter tracks cumulative rather than resident bytes; and
(iv) at a state whose counter is near the bound while its resident bytes
are tiny, a new response is refused caching even though the resident bytes
plus the response fit comfortably under the bound. -/
theorem c10_size_counter_never_decreases :
    (∀ (st : CacheState) (text : String) (outcomes : List AttemptOutcome),
      st.sizeBytes ≤ (query st text outcomes).2.sizeBytes) ∧
      (∀ (st : CacheState) (entries : List (String × JValue)),
        st.sizeBytes ≤ (load_cache st entries).sizeBytes) ∧
      (∀ (st : CacheState) (key : String) (v : JValue),
        dictLookup st.entries key = none → st.entries.length = lruMaxSize →
        st.sizeBytes + jsonBytes v ≤ maxCacheBytes →
        (queryLoop st key [.success v]).2.sizeBytes =
          st.sizeBytes + jsonBytes v ∧
        (queryLoop st key [.success v]).2.entries.length = lruMaxSize) ∧
      (residentBytes overfullState + jsonBytes bigVal ≤ maxCacheBytes ∧
        maxCacheBytes < overfullState.sizeBytes + jsonBytes bigVal ∧
        (query overfullState "т" [.success bigVal]).2 = overfullState) := by
  refine ⟨?_, load_cache_size_mono, ?_, by decide, by decide, by decide⟩
  · intro st text outcomes
    unfold query
    split
    · exact le_refl _
    · exact queryLoop_size_mono st (cacheKey text) outcomes
  · intro st key v hmiss hfull hle
    rw [queryLoop, if_pos hle]
    refine ⟨rfl, ?_⟩
    rw [show lruSet st.entries key v = st.entries.tail ++ [(key, v)] from by
      unfold lruSet
      rw [hmiss]
      simp only [Option.isSome_none, Bool.false_eq_true, if_false]
      rw [if_pos (le_of_eq hfull.symm)]]
    rw [List.length_append, List.length_tail, hfull]
    rfl

/-- **C10 (witness).**  Part (iii) at a concrete full cache: inserting a
new small value keeps 1000 entries while the counter adds the whole
serialized size. -/
theorem c10_size_counter_never_decreases_witness :
    (queryLoop fullCacheState "ключ" [.success (.jstr "я")]).2.sizeBytes =
      fullCacheState.sizeBytes + jsonBytes (.jstr "я") ∧
      (queryLoop fullCacheState "ключ"
        [.success (.jstr "я")]).2.entries.length = lruMaxSize :=
  c10_size_counter_never_decreases.2.2.1 fullCacheState "ключ" (.jstr "я")
    (by decide) (by decide) (by decide)

end AIEval
